import Mathlib

/-!
Verification development for a 3D online bin-packing library
(guillotine packer `GuillotineBinPack3d` and max-rects/support packer
`MaxRectsBinPack`), shallowly embedded from the C++ sources
(`Rect3d.h`, `Rect3d.cpp`, `MaxRectsBinPack.h`, the guillotine and
max-rects `.cpp` files).  C++ `int` values are modelled as `Int`
(no claim here depends on 32-bit wraparound); `std::vector` is `List`;
`float` ratios are `ℚ`.  `std::sort` (whose order on tie keys is
unspecified) is modelled by a stable insertion sort; every state
reached in the concrete runs below has pairwise-distinct sort keys, so
the modelled order agrees with any conforming `std::sort`.
-/

/-- `struct RectSize3d { int width, height, depth; }` from Rect3d.h. -/
structure RectSize3d where
  width : Int
  height : Int
  depth : Int
deriving DecidableEq

instance : Inhabited RectSize3d := ⟨⟨0, 0, 0⟩⟩

/-- `struct Rect3d { int x, y, z, width, height, depth; }` from Rect3d.h. -/
structure Rect3d where
  x : Int
  y : Int
  z : Int
  width : Int
  height : Int
  depth : Int
deriving DecidableEq

instance : Inhabited Rect3d := ⟨⟨0, 0, 0, 0, 0, 0⟩⟩

/-- `struct FreeRect3d` from Rect3d.h: a box plus its 2D support footprint
`(supportx0, supportx1, supporty0, supporty1)`. -/
structure FreeRect3d where
  x : Int
  y : Int
  z : Int
  width : Int
  height : Int
  depth : Int
  supportx0 : Int
  supportx1 : Int
  supporty0 : Int
  supporty1 : Int
deriving DecidableEq

instance : Inhabited FreeRect3d := ⟨⟨0, 0, 0, 0, 0, 0, 0, 0, 0, 0⟩⟩

/-- The all-zero rectangle produced by `memset(&bestNode, 0, sizeof(Rect3d))`. -/
def zeroRect3d : Rect3d := ⟨0, 0, 0, 0, 0, 0⟩

/-- Two half-open integer intervals `[lo₁, lo₁+len₁)` and `[lo₂, lo₂+len₂)`
share a point. -/
def intervalOverlap (lo1 len1 lo2 len2 : Int) : Prop :=
  max lo1 lo2 < min (lo1 + len1) (lo2 + len2)

instance (lo1 len1 lo2 len2 : Int) : Decidable (intervalOverlap lo1 len1 lo2 len2) := by
  unfold intervalOverlap; infer_instance

/-- Two boxes overlap in all three axes simultaneously, i.e. their point
sets (products of half-open intervals) intersect.  Degenerate boxes
(any extent `≤ 0`) overlap nothing. -/
def Rect3d.overlap (a b : Rect3d) : Prop :=
  intervalOverlap a.x a.width b.x b.width ∧
  intervalOverlap a.y a.height b.y b.height ∧
  intervalOverlap a.z a.depth b.z b.depth

instance (a b : Rect3d) : Decidable (a.overlap b) := by
  unfold Rect3d.overlap; infer_instance

/-- `DisjointRectCollection3d::Disjoint(a, b)` (the static pairwise test)
from Rect3d.h: a separating-axis test with no degeneracy special case. -/
def DisjointRectCollection3d.DisjointPair (a b : Rect3d) : Bool :=
  a.x + a.width ≤ b.x ∨ b.x + b.width ≤ a.x ∨
  a.y + a.height ≤ b.y ∨ b.y + b.height ≤ a.y ∨
  a.z + a.depth ≤ b.z ∨ b.z + b.depth ≤ a.z

/-- `class DisjointRectCollection3d` state: `std::vector<Rect3d> rects`. -/
structure DisjointRectCollection3d where
  rects : List Rect3d
deriving DecidableEq

/-- `DisjointRectCollection3d::Disjoint(r)` from Rect3d.h: degenerate
rectangles are ignored; otherwise `r` is checked against every member. -/
def DisjointRectCollection3d.DisjointOne (c : DisjointRectCollection3d) (r : Rect3d) : Bool :=
  if r.width = 0 ∨ r.height = 0 ∨ r.depth = 0 then true
  else c.rects.all fun m => DisjointRectCollection3d.DisjointPair m r

/-- `DisjointRectCollection3d::Add(r)` from Rect3d.h: returns the C++
return value together with the updated collection. -/
def DisjointRectCollection3d.Add (c : DisjointRectCollection3d) (r : Rect3d) :
    Bool × DisjointRectCollection3d :=
  if r.width = 0 ∨ r.height = 0 ∨ r.depth = 0 then (true, c)
  else if c.DisjointOne r then (true, ⟨c.rects ++ [r]⟩)
  else (false, c)

/-- `IsContainedIn3d(a, b)` from Rect3d.cpp. -/
def IsContainedIn3d (a b : Rect3d) : Bool :=
  a.x ≥ b.x ∧ a.y ≥ b.y ∧
  a.x + a.width ≤ b.x + b.width ∧
  a.y + a.height ≤ b.y + b.height ∧
  a.z + a.depth ≤ b.z + b.depth

/-- `IsContainedInFree3d(a, b)` from Rect3d.cpp (note the asymmetric
z condition `a.z ≥ b.z && a.z + a.depth ≥ b.z + b.depth` of the source). -/
def IsContainedInFree3d (a b : FreeRect3d) : Bool :=
  a.x ≥ b.x ∧ a.y ≥ b.y ∧
  a.x + a.width ≤ b.x + b.width ∧
  a.y + a.height ≤ b.y + b.height ∧
  a.z ≥ b.z ∧ a.z + a.depth ≥ b.z + b.depth

/-- Stable insertion of an element into a sorted list; building block of
the model of `std::sort`. -/
def insertSorted {α : Type} (le : α → α → Bool) (a : α) : List α → List α
  | [] => [a]
  | b :: l => if le a b then a :: b :: l else b :: insertSorted le a l

/-- Stable insertion sort modelling `std::sort` (see the header comment). -/
def sortBy {α : Type} (le : α → α → Bool) : List α → List α
  | [] => []
  | a :: l => insertSorted le a (sortBy le l)

theorem insertSorted_perm {α : Type} (le : α → α → Bool) (a : α) (l : List α) :
    (insertSorted le a l).Perm (a :: l) := by
  induction l with
  | nil => simp [insertSorted]
  | cons b l ih =>
    simp only [insertSorted]
    split
    · exact List.Perm.refl _
    · exact (List.Perm.cons b ih).trans (List.Perm.swap a b l)

theorem sortBy_perm {α : Type} (le : α → α → Bool) (l : List α) : (sortBy le l).Perm l := by
  induction l with
  | nil => exact List.Perm.refl _
  | cons a l ih => exact (insertSorted_perm le a (sortBy le l)).trans (List.Perm.cons a ih)

/-- `INT_MAX`, the no-fit sentinel of the C++ sources. -/
def intMax : Int := 2147483647

/-- `INT_MIN`, the perfect-fit sentinel of the C++ sources. -/
def intMin : Int := -2147483648

/-- `GuillotineBinPack3d::FreeRectChoiceHeuristic` (declaration lives in the
missing guillotine header; the six values are those the `.cpp` switch and
the spec enumerate). -/
inductive FreeRectChoiceHeuristic where
  | RectBestAreaFit
  | RectBestShortSideFit
  | RectBestLongSideFit
  | RectWorstAreaFit
  | RectWorstShortSideFit
  | RectWorstLongSideFit
deriving DecidableEq

/-- `GuillotineBinPack3d::GuillotineSplitHeuristic` (same provenance). -/
inductive GuillotineSplitHeuristic where
  | SplitShorterLeftoverAxis
  | SplitLongerLeftoverAxis
  | SplitMinimizeArea
  | SplitMaximizeArea
  | SplitShorterAxis
  | SplitLongerAxis
deriving DecidableEq

/-- `GuillotineBinPack3d` state. -/
structure GuillotineBinPack3d where
  binWidth : Int
  binHeight : Int
  binDepth : Int
  usedRectangles : List Rect3d
  freeRectangles : List Rect3d
deriving DecidableEq

namespace GuillotineBinPack3d

/-- `GuillotineBinPack3d::Init`: one free volume spanning the whole bin. -/
def Init (width height depth : Int) : GuillotineBinPack3d :=
  { binWidth := width, binHeight := height, binDepth := depth
    usedRectangles := []
    freeRectangles := [⟨0, 0, 0, width, height, depth⟩] }

/-- `ScoreBestAreaFit`. -/
def ScoreBestAreaFit (width height depth : Int) (freeRect : Rect3d) : Int :=
  freeRect.width * freeRect.height * freeRect.depth - width * height * depth

/-- `ScoreBestShortSideFit`. -/
def ScoreBestShortSideFit (width height depth : Int) (freeRect : Rect3d) : Int :=
  min (min |freeRect.width - width| |freeRect.height - height|) |freeRect.depth - depth|

/-- `ScoreBestLongSideFit`. -/
def ScoreBestLongSideFit (width height depth : Int) (freeRect : Rect3d) : Int :=
  max (max |freeRect.width - width| |freeRect.height - height|) |freeRect.depth - depth|

/-- `ScoreWorstAreaFit`. -/
def ScoreWorstAreaFit (width height depth : Int) (freeRect : Rect3d) : Int :=
  -ScoreBestAreaFit width height depth freeRect

/-- `ScoreWorstShortSideFit`. -/
def ScoreWorstShortSideFit (width height depth : Int) (freeRect : Rect3d) : Int :=
  -ScoreBestShortSideFit width height depth freeRect

/-- `ScoreWorstLongSideFit`. -/
def ScoreWorstLongSideFit (width height depth : Int) (freeRect : Rect3d) : Int :=
  -ScoreBestLongSideFit width height depth freeRect

/-- `GuillotineBinPack3d::ScoreByHeuristic`. -/
def ScoreByHeuristic (width height depth : Int) (freeRect : Rect3d)
    (rectChoice : FreeRectChoiceHeuristic) : Int :=
  match rectChoice with
  | .RectBestAreaFit => ScoreBestAreaFit width height depth freeRect
  | .RectBestShortSideFit => ScoreBestShortSideFit width height depth freeRect
  | .RectBestLongSideFit => ScoreBestLongSideFit width height depth freeRect
  | .RectWorstAreaFit => ScoreWorstAreaFit width height depth freeRect
  | .RectWorstShortSideFit => ScoreWorstShortSideFit width height depth freeRect
  | .RectWorstLongSideFit => ScoreWorstLongSideFit width height depth freeRect

/-- The sort key of the lambda `sortFreeRectsByZ` inside
`FindPositionForNewNode`: `x + y*binWidth + z*binWidth*binHeight`. -/
def sortKey (binWidth binHeight : Int) (r : Rect3d) : Int :=
  r.x + r.y * binWidth + r.z * binWidth * binHeight

/-- The `std::sort(freeRectangles, sortFreeRectsByZ)` call at the top of
`FindPositionForNewNode`. -/
def sortFreeRectsByZ (binWidth binHeight : Int) (l : List Rect3d) : List Rect3d :=
  sortBy (fun a b => sortKey binWidth binHeight a ≤ sortKey binWidth binHeight b) l

/-- The scan loop of `FindPositionForNewNode` (the heuristic scoring is
commented out in the source: each of the four fit branches ends in
`break`, so the scan is first-fit over the sorted list).  Returns the
placed node and the index of the chosen free rectangle. -/
def findPos (width height depth : Int) : List Rect3d → Option (Rect3d × Nat)
  | [] => none
  | f :: rest =>
    if width = f.width ∧ height = f.height ∧ depth = f.depth then
      some (⟨f.x, f.y, f.z, width, height, depth⟩, 0)
    else if height = f.width ∧ width = f.height ∧ depth = f.depth then
      some (⟨f.x, f.y, f.z, height, width, depth⟩, 0)
    else if width ≤ f.width ∧ height ≤ f.height ∧ depth ≤ f.depth then
      some (⟨f.x, f.y, f.z, width, height, depth⟩, 0)
    else if height ≤ f.width ∧ width ≤ f.height ∧ depth ≤ f.depth then
      some (⟨f.x, f.y, f.z, height, width, depth⟩, 0)
    else
      (findPos width height depth rest).map fun p => (p.1, p.2 + 1)

/-- `GuillotineBinPack3d::SplitFreeRectAlongAxis`: the (up to) three new
free volumes, in push order `up, bottom, right`, degenerate ones dropped. -/
def SplitFreeRectAlongAxis (freeRect placedRect : Rect3d) (splitHorizontal : Bool) :
    List Rect3d :=
  let bottom : Rect3d :=
    { x := freeRect.x, y := freeRect.y + placedRect.height, z := freeRect.z
      width := if splitHorizontal then freeRect.width else placedRect.width
      height := freeRect.height - placedRect.height
      depth := freeRect.depth }
  let right : Rect3d :=
    { x := freeRect.x + placedRect.width, y := freeRect.y, z := freeRect.z
      width := freeRect.width - placedRect.width
      height := if splitHorizontal then placedRect.height else freeRect.height
      depth := freeRect.depth }
  let up : Rect3d :=
    { x := freeRect.x, y := freeRect.y, z := freeRect.z + placedRect.depth
      width := placedRect.width, height := placedRect.height
      depth := freeRect.depth - placedRect.depth }
  (if 0 < up.width ∧ 0 < up.height ∧ 0 < up.depth then [up] else []) ++
  (if 0 < bottom.width ∧ 0 < bottom.height ∧ 0 < bottom.depth then [bottom] else []) ++
  (if 0 < right.width ∧ 0 < right.height ∧ 0 < right.depth then [right] else [])

/-- The split-axis decision of `SplitFreeRectByHeuristic`. -/
def splitAxisOf (freeRect placedRect : Rect3d) (method : GuillotineSplitHeuristic) : Bool :=
  let w := freeRect.width - placedRect.width
  let h := freeRect.height - placedRect.height
  match method with
  | .SplitShorterLeftoverAxis => w ≤ h
  | .SplitLongerLeftoverAxis => w > h
  | .SplitMinimizeArea => placedRect.width * h > w * placedRect.height
  | .SplitMaximizeArea => placedRect.width * h ≤ w * placedRect.height
  | .SplitShorterAxis => freeRect.width ≤ freeRect.height
  | .SplitLongerAxis => freeRect.width > freeRect.height

/-- `GuillotineBinPack3d::SplitFreeRectByHeuristic`: the rectangles it
pushes onto the free list. -/
def SplitFreeRectByHeuristic (freeRect placedRect : Rect3d)
    (method : GuillotineSplitHeuristic) : List Rect3d :=
  SplitFreeRectAlongAxis freeRect placedRect (splitAxisOf freeRect placedRect method)

/-- One comparison step of `MergeFreeList`'s inner loop: the else-if chain
deciding whether free rectangles `a` (at index i) and `b` (at index j)
merge, returning the merged rectangle that replaces `a`.  The third
branch's second condition reproduces the source literally
(`freeRectangles[i].x + freeRectangles[i].depth == freeRectangles[i].x`). -/
def tryMerge (a b : Rect3d) : Option Rect3d :=
  if a.width = b.width ∧ a.x = b.x ∧ a.z = b.z ∧ a.depth = b.depth then
    if a.y = b.y + b.height then
      some { a with y := a.y - b.height, height := a.height + b.height }
    else if a.y + a.height = b.y then
      some { a with height := a.height + b.height }
    else none
  else if a.height = b.height ∧ a.y = b.y ∧ a.z = b.z ∧ a.depth = b.depth then
    if a.x = b.x + b.width then
      some { a with x := a.x - b.width, width := a.width + b.width }
    else if a.x + a.width = b.x then
      some { a with width := a.width + b.width }
    else none
  else if a.width = b.width ∧ a.height = b.height ∧ a.x = b.x ∧ a.y = b.y then
    if a.z = b.z + b.depth then
      some { a with z := a.z - b.depth, depth := a.depth + b.depth }
    else if a.x + a.depth = a.x then
      some { a with depth := a.depth + b.depth }
    else none
  else none

/-- `MergeFreeList`'s inner loop (`j = i+1 .. size`): scans the elements
after position i, absorbing each mergeable one into the accumulating
rectangle (the source erases the absorbed element and retries the same
index). Returns the final rectangle for position i and the surviving
later elements. -/
def mergeInner (t : Rect3d) : List Rect3d → Rect3d × List Rect3d
  | [] => (t, [])
  | r :: rest =>
    match tryMerge t r with
    | some m => mergeInner m rest
    | none =>
      let p := mergeInner t rest
      (p.1, r :: p.2)

theorem mergeInner_length_le (t : Rect3d) (l : List Rect3d) :
    (mergeInner t l).2.length ≤ l.length := by
  induction l generalizing t with
  | nil => simp [mergeInner]
  | cons r rest ih =>
    simp only [mergeInner]
    cases h : tryMerge t r with
    | some m => exact (ih m).trans (Nat.le_succ _)
    | none => simpa using ih t

/-- `MergeFreeList`'s outer loop, fuelled (the fuel bounds the list
length, which each inner pass can only shrink). -/
def mergeOuter : Nat → List Rect3d → List Rect3d
  | 0, l => l
  | _ + 1, [] => []
  | fuel + 1, t :: rest =>
    let p := mergeInner t rest
    p.1 :: mergeOuter fuel p.2

/-- `GuillotineBinPack3d::MergeFreeList`. -/
def MergeFreeList (l : List Rect3d) : List Rect3d :=
  mergeOuter l.length l

/-- `GuillotineBinPack3d::Insert` (single rectangle): sort the free list,
first-fit scan, guillotine split of the chosen free volume, optional
merge, append to the used list.  A found node with `height = 0` (the
no-fit sentinel) aborts after the sort. -/
def Insert (st : GuillotineBinPack3d) (width height depth : Int) (merge : Bool)
    (_rectChoice : FreeRectChoiceHeuristic) (splitMethod : GuillotineSplitHeuristic) :
    Rect3d × GuillotineBinPack3d :=
  let sorted := sortFreeRectsByZ st.binWidth st.binHeight st.freeRectangles
  match findPos width height depth sorted with
  | none => (zeroRect3d, { st with freeRectangles := sorted })
  | some (newRect, idx) =>
    if newRect.height = 0 then (newRect, { st with freeRectangles := sorted })
    else
      let chosen := sorted.getD idx default
      let products := SplitFreeRectByHeuristic chosen newRect splitMethod
      let free1 := (sorted ++ products).eraseIdx idx
      let free2 := if merge then MergeFreeList free1 else free1
      (newRect, { st with
        freeRectangles := free2
        usedRectangles := st.usedRectangles ++ [newRect] })

/-- `GuillotineBinPack3d::Occupancy`: volumetric ratio, modelled in `ℚ`. -/
def Occupancy (st : GuillotineBinPack3d) : ℚ :=
  ((st.usedRectangles.map fun r => r.width * r.height * r.depth).sum : Int) /
    ((st.binWidth * st.binHeight * st.binDepth : Int) : ℚ)

/-- Best-candidate record of the batch `Insert` scan:
`(bestFreeRect, bestRect, bestFlipped, bestScore)`. -/
structure BatchBest where
  bestFreeRect : Nat
  bestRect : Nat
  bestFlipped : Bool
  bestScore : Int
deriving DecidableEq

/-- The depth conjunct of the batch upright-fit test.  The source reads
`rects[j].depth <= freeRectangles[j].depth`, indexing the free list by
the rect index `j`; when `j` is out of bounds this is undefined
behaviour in C++, modelled here as a failed test. -/
def batchUprightDepthOk (freeRects : List Rect3d) (j : Nat) (r : RectSize3d) : Bool :=
  match freeRects[j]? with
  | some fr => r.depth ≤ fr.depth
  | none => false

/-- Inner loop (over rect index `j`) of the batch scan for one free
rectangle `fi` at index `i`.  Returns the updated best record and
whether a perfect fit forced the double-loop exit. -/
def scanRects (allFree : List Rect3d) (rectChoice : FreeRectChoiceHeuristic)
    (fi : Rect3d) (i : Nat) :
    List RectSize3d → Nat → BatchBest → BatchBest × Bool
  | [], _, best => (best, false)
  | r :: rest, j, best =>
    if r.width = fi.width ∧ r.height = fi.height ∧ r.depth = fi.depth then
      (⟨i, j, false, intMin⟩, true)
    else if r.height = fi.width ∧ r.width = fi.height ∧ r.depth = fi.depth then
      (⟨i, j, true, intMin⟩, true)
    else if r.width ≤ fi.width ∧ r.height ≤ fi.height ∧
        batchUprightDepthOk allFree j r = true then
      let score := ScoreByHeuristic r.width r.height r.depth fi rectChoice
      let best1 := if score < best.bestScore then ⟨i, j, false, score⟩ else best
      scanRects allFree rectChoice fi i rest (j + 1) best1
    else if r.height ≤ fi.width ∧ r.width ≤ fi.height ∧ r.depth ≤ fi.depth then
      let score := ScoreByHeuristic r.height r.width r.depth fi rectChoice
      let best1 := if score < best.bestScore then ⟨i, j, true, score⟩ else best
      scanRects allFree rectChoice fi i rest (j + 1) best1
    else
      scanRects allFree rectChoice fi i rest (j + 1) best

/-- Outer loop (over free index `i`) of the batch scan. -/
def scanFree (allFree : List Rect3d) (rectChoice : FreeRectChoiceHeuristic)
    (rects : List RectSize3d) :
    List Rect3d → Nat → BatchBest → BatchBest
  | [], _, best => best
  | f :: rest, i, best =>
    match scanRects allFree rectChoice f i rects 0 best with
    | (best1, true) => best1
    | (best1, false) => scanFree allFree rectChoice rects rest (i + 1) best1

/-- The whole scan of one batch iteration, starting from
`bestScore = INT_MAX` and best indices `(0, 0)`. -/
def batchScan (st : GuillotineBinPack3d) (rects : List RectSize3d)
    (rectChoice : FreeRectChoiceHeuristic) : BatchBest :=
  scanFree st.freeRectangles rectChoice rects st.freeRectangles 0 ⟨0, 0, false, intMax⟩

/-- The `while(rects.size() > 0)` loop of the batch
`GuillotineBinPack3d::Insert`, fuelled by the rect count.  The final
`else` branch is unreachable (the scan only records in-range indices)
and mirrors a loop that would make no progress. -/
def batchLoop (merge : Bool) (rectChoice : FreeRectChoiceHeuristic)
    (splitMethod : GuillotineSplitHeuristic) :
    Nat → GuillotineBinPack3d → List RectSize3d → GuillotineBinPack3d
  | 0, st, _ => st
  | _ + 1, st, [] => st
  | fuel + 1, st, rects =>
    let best := batchScan st rects rectChoice
    if best.bestScore = intMax then st
    else if best.bestFreeRect < st.freeRectangles.length ∧ best.bestRect < rects.length then
      let chosen := st.freeRectangles.getD best.bestFreeRect default
      let rsz := rects.getD best.bestRect default
      let newNode : Rect3d :=
        { x := chosen.x, y := chosen.y, z := chosen.z
          width := if best.bestFlipped then rsz.height else rsz.width
          height := if best.bestFlipped then rsz.width else rsz.height
          depth := rsz.depth }
      let products := SplitFreeRectByHeuristic chosen newNode splitMethod
      let free1 := (st.freeRectangles ++ products).eraseIdx best.bestFreeRect
      let free2 := if merge then MergeFreeList free1 else free1
      let st1 := { st with
        freeRectangles := free2
        usedRectangles := st.usedRectangles ++ [newNode] }
      batchLoop merge rectChoice splitMethod fuel st1 (rects.eraseIdx best.bestRect)
    else st

/-- `GuillotineBinPack3d::Insert(std::vector<RectSize3d>&, ...)`,
the batch entry point. -/
def InsertBatch (st : GuillotineBinPack3d) (rects : List RectSize3d) (merge : Bool)
    (rectChoice : FreeRectChoiceHeuristic) (splitMethod : GuillotineSplitHeuristic) :
    GuillotineBinPack3d :=
  batchLoop merge rectChoice splitMethod rects.length st rects

end GuillotineBinPack3d

/-- `MaxRectsBinPack::FreeRectChoiceHeuristic` from MaxRectsBinPack.h
(only `RectBottomLeftRule` is implemented in the source; the other
cases of the `Insert` switch are commented out). -/
inductive MaxRectsChoiceHeuristic where
  | RectBestShortSideFit
  | RectBestLongSideFit
  | RectBestAreaFit
  | RectBottomLeftRule
  | RectContactPointRule
deriving DecidableEq

/-- `MaxRectsBinPack` state. -/
structure MaxRectsBinPack where
  binWidth : Int
  binHeight : Int
  binDepth : Int
  binAllowFlip : Bool
  usedRectangles : List Rect3d
  freeRectangles : List FreeRect3d
deriving DecidableEq

namespace MaxRectsBinPack

/-- `int supportTh = 0.8f;` from MaxRectsBinPack.h: the member is
declared `int`, so the initializer `0.8f` is truncated to `0`. -/
def supportTh : Int := 0

/-- `MaxRectsBinPack::Init`: one free volume spanning the whole bin,
fully supported by the floor. -/
def Init (width height depth : Int) (allowFlip : Bool) : MaxRectsBinPack :=
  { binWidth := width, binHeight := height, binDepth := depth
    binAllowFlip := allowFlip
    usedRectangles := []
    freeRectangles := [⟨0, 0, 0, width, height, depth, 0, width, 0, height⟩] }

/-- The comparison lambda of `MaxRectsBinPack::sortFreeSpace`:
lexicographic strict `(y, z, x)`.  Modelled as its reflexive closure for
the stable insertion sort (equivalent for the strict part). -/
def freeSpaceLe (r1 r2 : FreeRect3d) : Bool :=
  r1.y < r2.y ∨ (r1.y = r2.y ∧ r1.z < r2.z) ∨
  (r1.y = r2.y ∧ r1.z = r2.z ∧ r1.x ≤ r2.x)

/-- `MaxRectsBinPack::sortFreeSpace`. -/
def sortFreeSpace (l : List FreeRect3d) : List FreeRect3d :=
  sortBy freeSpaceLe l

/-- `MaxRectsBinPack::isBlocked`: the candidate's x–y footprint meets the
used rectangle's and the used rectangle's top is above the candidate's
bottom. -/
def isBlocked (usedRect newNode : Rect3d) : Bool :=
  if newNode.x < usedRect.x + usedRect.width ∧ usedRect.x < newNode.x + newNode.width ∧
      newNode.y < usedRect.y + usedRect.height ∧ usedRect.y < newNode.y + newNode.height then
    newNode.z < usedRect.z + usedRect.depth
  else false

/-- The upright acceptance guard of `FindPositionForNewNodeBottomLeft`:
geometric fit plus the support test against `supportTh`. -/
def uprightOk (width height depth : Int) (f : FreeRect3d) : Prop :=
  f.width ≥ width ∧ f.height ≥ height ∧ f.depth ≥ depth ∧
  f.supporty1 - f.supporty0 ≥ height * supportTh ∧
  f.supportx1 - f.supportx0 ≥ width * supportTh

instance (width height depth : Int) (f : FreeRect3d) :
    Decidable (uprightOk width height depth f) := by
  unfold uprightOk; infer_instance

/-- The flipped acceptance guard of `FindPositionForNewNodeBottomLeft`. -/
def flippedOk (width height depth : Int) (allowFlip : Bool) (f : FreeRect3d) : Prop :=
  allowFlip = true ∧ f.width ≥ height ∧ f.height ≥ width ∧ f.depth ≥ depth ∧
  f.supporty1 - f.supporty0 ≥ width * supportTh ∧
  f.supportx1 - f.supportx0 ≥ height * supportTh

instance (width height depth : Int) (allowFlip : Bool) (f : FreeRect3d) :
    Decidable (flippedOk width height depth allowFlip f) := by
  unfold flippedOk; infer_instance

/-- The scan loop of `FindPositionForNewNodeBottomLeft`.  The `blocked`
flag is declared once outside the loop and (in the upright branch) never
reset, so a blocked upright candidate at one free rectangle leaks into
later upright tests: the flag is threaded through faithfully. -/
def findBottomLeft (width height depth : Int) (allowFlip : Bool) (used : List Rect3d) :
    List FreeRect3d → Bool → Option Rect3d
  | [], _ => none
  | f :: rest, blocked =>
    let afterUpright : Bool → Option Rect3d := fun b =>
      if flippedOk width height depth allowFlip f then
        let node : Rect3d := ⟨f.supportx0, f.supporty0, f.z, height, width, depth⟩
        let b2 := used.any fun u => isBlocked u node
        if b2 = false then some node
        else findBottomLeft width height depth allowFlip used rest b2
      else findBottomLeft width height depth allowFlip used rest b
    if uprightOk width height depth f then
      let node : Rect3d := ⟨f.supportx0, f.supporty0, f.z, width, height, depth⟩
      let b1 := blocked || used.any fun u => isBlocked u node
      if b1 = false then some node else afterUpright b1
    else afterUpright blocked

/-- `MaxRectsBinPack::FindPositionForNewNodeBottomLeft` (the zero node of
the no-fit path included). -/
def FindPositionForNewNodeBottomLeft (st : MaxRectsBinPack) (width height depth : Int) :
    Rect3d :=
  match findBottomLeft width height depth st.binAllowFlip st.usedRectangles
      st.freeRectangles false with
  | some node => node
  | none => zeroRect3d

/-- `MaxRectsBinPack::SplitFreeNode`: whether `usedNode` intersects
`freeNode` and, if so, the (up to) six derived free volumes in push
order. -/
def SplitFreeNode (freeNode : FreeRect3d) (usedNode : Rect3d) :
    Bool × List FreeRect3d :=
  if usedNode.x ≥ freeNode.x + freeNode.width ∨ usedNode.x + usedNode.width ≤ freeNode.x ∨
      usedNode.y ≥ freeNode.y + freeNode.height ∨ usedNode.y + usedNode.height ≤ freeNode.y ∨
      usedNode.z ≥ freeNode.z + freeNode.depth ∨ usedNode.z + usedNode.depth ≤ freeNode.z then
    (false, [])
  else
    let cutTopY : List FreeRect3d :=
      if usedNode.y > freeNode.y ∧ usedNode.y < freeNode.y + freeNode.height then
        [{ freeNode with
            height := usedNode.y - freeNode.y
            supporty1 := min freeNode.supporty1 usedNode.y }]
      else []
    let cutBottomY : List FreeRect3d :=
      if usedNode.y + usedNode.height < freeNode.y + freeNode.height then
        [{ freeNode with
            y := usedNode.y + usedNode.height
            height := freeNode.y + freeNode.height - (usedNode.y + usedNode.height)
            supporty0 := max freeNode.supporty0 (usedNode.y + usedNode.height) }]
      else []
    let cutLeftX : List FreeRect3d :=
      if usedNode.x > freeNode.x ∧ usedNode.x < freeNode.x + freeNode.width then
        [{ freeNode with
            width := usedNode.x - freeNode.x
            supportx1 := min freeNode.supportx1 usedNode.x }]
      else []
    let cutRightX : List FreeRect3d :=
      if usedNode.x + usedNode.width < freeNode.x + freeNode.width then
        [{ freeNode with
            x := usedNode.x + usedNode.width
            width := freeNode.x + freeNode.width - (usedNode.x + usedNode.width)
            supportx0 := max freeNode.supportx0 (usedNode.x + usedNode.width) }]
      else []
    let cutBottomZ : List FreeRect3d :=
      if usedNode.z > freeNode.z ∧ usedNode.z < freeNode.z + freeNode.depth then
        [{ freeNode with depth := usedNode.z - freeNode.z }]
      else []
    let cutTopZ : List FreeRect3d :=
      if usedNode.z + usedNode.depth < freeNode.z + freeNode.depth then
        [{ freeNode with
            z := usedNode.z + usedNode.depth
            depth := freeNode.z + freeNode.depth - (usedNode.z + usedNode.depth)
            supportx0 := usedNode.x
            supportx1 := usedNode.x + usedNode.width
            supporty0 := usedNode.y
            supporty1 := usedNode.y + usedNode.height }]
      else []
    (true, cutTopY ++ cutBottomY ++ cutLeftX ++ cutRightX ++ cutBottomZ ++ cutTopZ)

/-- The split loop of the max-rects `Insert`: every original free
rectangle intersected by `newNode` is replaced by its split products,
which accumulate after the surviving originals (the C++ pushes products
past the shrinking processed prefix). -/
def splitAll (newNode : Rect3d) : List FreeRect3d → List FreeRect3d × List FreeRect3d
  | [] => ([], [])
  | f :: rest =>
    let p := splitAll newNode rest
    match SplitFreeNode f newNode with
    | (true, products) => (p.1, products ++ p.2)
    | (false, _) => (f :: p.1, p.2)

/-- `PruneFreeList`'s inner loop for the element `t` at position i
against the elements after it: either `t` is found redundant (first
component `true`; the remainder is returned unfiltered, as the C++
breaks out) or the elements contained in `t` are dropped. -/
def pruneInner (t : FreeRect3d) : List FreeRect3d → Bool × List FreeRect3d
  | [] => (false, [])
  | r :: rest =>
    if IsContainedInFree3d t r then (true, r :: rest)
    else if IsContainedInFree3d r t then pruneInner t rest
    else
      let p := pruneInner t rest
      (p.1, r :: p.2)

theorem pruneInner_length_le (t : FreeRect3d) (l : List FreeRect3d) :
    (pruneInner t l).2.length ≤ l.length := by
  induction l with
  | nil => simp [pruneInner]
  | cons r rest ih =>
    simp only [pruneInner]
    split
    · simp
    · split
      · exact ih.trans (Nat.le_succ _)
      · simpa using ih

/-- `PruneFreeList`'s outer loop, fuelled by the list length. -/
def pruneOuter : Nat → List FreeRect3d → List FreeRect3d
  | 0, l => l
  | _ + 1, [] => []
  | fuel + 1, t :: rest =>
    match pruneInner t rest with
    | (true, rest1) => pruneOuter fuel rest1
    | (false, rest1) => t :: pruneOuter fuel rest1

/-- `MaxRectsBinPack::PruneFreeList`. -/
def PruneFreeList (l : List FreeRect3d) : List FreeRect3d :=
  pruneOuter l.length l

/-- `MaxRectsBinPack::Insert` with `RectBottomLeftRule` (the only case
of the method switch that survives in the source): sort the free
list, bottom-left search, split every overlapped free volume, prune,
append to the used list.  A found node with `height = 0` aborts after
the sort. -/
def Insert (st : MaxRectsBinPack) (width height depth : Int)
    (_method : MaxRectsChoiceHeuristic) : Rect3d × MaxRectsBinPack :=
  let sorted := sortFreeSpace st.freeRectangles
  let st1 := { st with freeRectangles := sorted }
  let newNode := FindPositionForNewNodeBottomLeft st1 width height depth
  if newNode.height = 0 then (newNode, st1)
  else
    let p := splitAll newNode sorted
    let pruned := PruneFreeList (p.1 ++ p.2)
    (newNode, { st with
      freeRectangles := pruned
      usedRectangles := st.usedRectangles ++ [newNode] })

/-- `MaxRectsBinPack::Occupancy`: the ratio of used x–y footprint area to
the bin's footprint area (depth deliberately excluded), modelled in `ℚ`. -/
def Occupancy (st : MaxRectsBinPack) : ℚ :=
  ((st.usedRectangles.map fun r => r.width * r.height).sum : Int) /
    ((st.binWidth * st.binHeight : Int) : ℚ)

end MaxRectsBinPack

/-! ## Shared predicates for the claims -/

/-- A box lies fully within the container `[0,W]×[0,H]×[0,D]`. -/
def Rect3d.insideBin (W H D : Int) (r : Rect3d) : Prop :=
  0 ≤ r.x ∧ 0 ≤ r.y ∧ 0 ≤ r.z ∧
  r.x + r.width ≤ W ∧ r.y + r.height ≤ H ∧ r.z + r.depth ≤ D

instance (W H D : Int) (r : Rect3d) : Decidable (r.insideBin W H D) := by
  unfold Rect3d.insideBin; infer_instance

/-- Volume of a box. -/
def Rect3d.volume (r : Rect3d) : Int := r.width * r.height * r.depth

/-- x–y footprint area of a box. -/
def Rect3d.footprintArea (r : Rect3d) : Int := r.width * r.height

/-- A request `(width, height, depth)` fits a free volume in some
orientation: upright or width/height-flipped (the four branches of the
guillotine scans reduce to this disjunction, perfect fits included). -/
def fitsAnyBranch (width height depth : Int) (f : Rect3d) : Prop :=
  (width ≤ f.width ∧ height ≤ f.height ∧ depth ≤ f.depth) ∨
  (height ≤ f.width ∧ width ≤ f.height ∧ depth ≤ f.depth)

instance (width height depth : Int) (f : Rect3d) :
    Decidable (fitsAnyBranch width height depth f) := by
  unfold fitsAnyBranch; infer_instance

/-- The support gate as the specification states it: the support
footprint must cover at least the fraction 0.8 of the candidate's width
and of its height independently (written over `Int` as `4·extent ≤
5·support`). -/
def specSupportOk (f : FreeRect3d) (width height : Int) : Prop :=
  4 * width ≤ 5 * (f.supportx1 - f.supportx0) ∧
  4 * height ≤ 5 * (f.supporty1 - f.supporty0)

instance (f : FreeRect3d) (width height : Int) :
    Decidable (specSupportOk f width height) := by
  unfold specSupportOk; infer_instance

/-! ## C1: the max-rects support gate -/

/-- The max-rects state after inserting `(4,10,5)` into an empty
`10×10×10` bin: the free volume above the placed box keeps only the
placed box's footprint as support (`supportx0 = 0, supportx1 = 4`). -/
def maxrectsSupportRun : MaxRectsBinPack :=
  (MaxRectsBinPack.Insert (MaxRectsBinPack.Init 10 10 10 false) 4 10 5
    .RectBottomLeftRule).2

/-- **C1** (code bug `int supportTh = 0.8f` truncates to `0`): a
candidate that fits geometrically but whose support coverage in x is
`4/10 < 0.8` of its width is nonetheless accepted and placed by
`MaxRectsBinPack::Insert`; the claim's support gate would reject it. -/
theorem maxrects_insert_accepts_undersupported_candidate :
    (3 ≤ (MaxRectsBinPack.sortFreeSpace maxrectsSupportRun.freeRectangles).length ∨
      ((MaxRectsBinPack.sortFreeSpace maxrectsSupportRun.freeRectangles).getD 1 default
        = ⟨0, 0, 5, 10, 10, 5, 0, 4, 0, 10⟩)) ∧
    (let chosen : FreeRect3d := ⟨0, 0, 5, 10, 10, 5, 0, 4, 0, 10⟩
     (10 ≤ chosen.width ∧ 10 ≤ chosen.height ∧ 5 ≤ chosen.depth) ∧
     ¬ specSupportOk chosen 10 10 ∧
     (MaxRectsBinPack.Insert maxrectsSupportRun 10 10 5 .RectBottomLeftRule).1
       = ⟨chosen.supportx0, chosen.supporty0, chosen.z, 10, 10, 5⟩ ∧
     (MaxRectsBinPack.Insert maxrectsSupportRun 10 10 5
       .RectBottomLeftRule).2.usedRectangles.length = 2) := by
  decide

/-! ## C3, C6, C10: the guillotine batch depth-index bug -/

/-- State after one single-box insert of `(4,4,6)` into a `10×10×10`
guillotine bin: three free volumes `(0,0,6,4,4,4)`, `(0,4,0,10,6,10)`,
`(4,0,0,6,4,10)`. -/
def guillotineBatchBugStart : GuillotineBinPack3d :=
  (GuillotineBinPack3d.Insert (GuillotineBinPack3d.Init 10 10 10) 4 4 6 false
    .RectBestAreaFit .SplitShorterLeftoverAxis).2

/-- State after the batch insert of `[(20,20,20), (4,3,8)]`: the upright
depth test for rect `j = 1` against free volume `i = 0` consults
`freeRectangles[1]` instead of `freeRectangles[0]`, so the `(4,3,8)` box
is placed into the free volume of depth 4. -/
def guillotineBatchBugFinal : GuillotineBinPack3d :=
  GuillotineBinPack3d.InsertBatch guillotineBatchBugStart
    [⟨20, 20, 20⟩, ⟨4, 3, 8⟩] false .RectBestAreaFit .SplitShorterLeftoverAxis

/-- **C3** (code bug: `rects[j].depth <= freeRectangles[j].depth` in the
batch upright-fit test indexes the free list by the rect index): after a
realizable call sequence the placed-box set contains `(0,0,6,4,3,8)`,
whose top `z + depth = 14` exceeds the container depth 10. -/
theorem guillotine_batch_places_box_outside_bin :
    (⟨0, 0, 6, 4, 3, 8⟩ : Rect3d) ∈ guillotineBatchBugFinal.usedRectangles ∧
    ¬ Rect3d.insideBin 10 10 10 ⟨0, 0, 6, 4, 3, 8⟩ := by
  decide

/-- **C6** (same code bug): before the batch call the split-completeness
identity `container volume = Σ free + Σ placed` holds, and the batch
call breaks it (the sum afterwards is 1048 ≠ 1000: the overflowing box
contributes volume the free list never held). -/
theorem guillotine_batch_breaks_volume_conservation :
    (guillotineBatchBugStart.freeRectangles.map Rect3d.volume).sum +
      (guillotineBatchBugStart.usedRectangles.map Rect3d.volume).sum = 10 * 10 * 10 ∧
    (guillotineBatchBugFinal.freeRectangles.map Rect3d.volume).sum +
      (guillotineBatchBugFinal.usedRectangles.map Rect3d.volume).sum ≠ 10 * 10 * 10 := by
  decide

/-- **C10** (code bug): in the batch scan over a freshly initialized
`10×10×10` bin with rects `[(20,20,20), (4,3,8)]`, the iteration
`(i = 0, j = 1)` passes the perfect-fit and width/height guards and so
reaches the upright depth conjunct, whose lookup `freeRectangles[j]`
with `j = 1` is out of bounds for the one-element free list. -/
theorem batch_upright_depth_index_out_of_bounds :
    (let f := (GuillotineBinPack3d.Init 10 10 10).freeRectangles.getD 0 default
     let r : RectSize3d := ⟨4, 3, 8⟩
     ¬(r.width = f.width ∧ r.height = f.height ∧ r.depth = f.depth) ∧
     ¬(r.height = f.width ∧ r.width = f.height ∧ r.depth = f.depth) ∧
     r.width ≤ f.width ∧ r.height ≤ f.height) ∧
    (GuillotineBinPack3d.Init 10 10 10).freeRectangles[1]? = none ∧
    1 < ([⟨20, 20, 20⟩, ⟨4, 3, 8⟩] : List RectSize3d).length := by
  decide

/-! ## C4: single-box selection ignores the scoring rule -/

/-- State after inserting `(4,4,10)` into a `10×10×10` guillotine bin:
two free volumes `(0,4,0,10,6,10)` and `(4,0,0,6,4,10)`. -/
def guillotineTwoFreeRun : GuillotineBinPack3d :=
  (GuillotineBinPack3d.Insert (GuillotineBinPack3d.Init 10 10 10) 4 4 10 false
    .RectBestAreaFit .SplitShorterLeftoverAxis).2

/-- **C4 counterexample**: inserting `(5,3,10)` with the
`RectWorstAreaFit` rule.  Both free volumes fit (neither perfectly); in
sorted order the first is `(4,0,0,6,4,10)` and the second
`(0,4,0,10,6,10)`, and the second scores strictly lower — yet the box is
placed at the first volume's origin `(4,0,0)`: the minimum-score
candidate is not selected, refuting the claim. -/
theorem guillotine_insertOne_not_min_score :
    (let first : Rect3d := ⟨4, 0, 0, 6, 4, 10⟩
     let second : Rect3d := ⟨0, 4, 0, 10, 6, 10⟩
     GuillotineBinPack3d.sortFreeRectsByZ 10 10 guillotineTwoFreeRun.freeRectangles
       = [first, second] ∧
     fitsAnyBranch 5 3 10 first ∧ fitsAnyBranch 5 3 10 second ∧
     ¬(5 = first.width ∧ 3 = first.height ∧ 10 = first.depth) ∧
     ¬(3 = first.width ∧ 5 = first.height ∧ 10 = first.depth) ∧
     ¬(5 = second.width ∧ 3 = second.height ∧ 10 = second.depth) ∧
     ¬(3 = second.width ∧ 5 = second.height ∧ 10 = second.depth) ∧
     GuillotineBinPack3d.ScoreByHeuristic 5 3 10 second .RectWorstAreaFit <
       GuillotineBinPack3d.ScoreByHeuristic 5 3 10 first .RectWorstAreaFit ∧
     (GuillotineBinPack3d.Insert guillotineTwoFreeRun 5 3 10 false .RectWorstAreaFit
       .SplitShorterLeftoverAxis).1 = ⟨first.x, first.y, first.z, 5, 3, 10⟩ ∧
     (first.x, first.y) ≠ (second.x, second.y)) := by
  decide

/-! ## C5: a failed insert reorders the free list -/

/-- **C5 counterexample**: inserting `(20,20,20)`, which fits nowhere,
into the two-free-volume state returns the zero rectangle and leaves the
placed-box set unchanged, but the free-volume list comes back in a
different order (the pre-search sort is not undone), so the state is not
byte-for-byte unchanged. -/
theorem failed_insert_reorders_free_list :
    (∀ f ∈ guillotineTwoFreeRun.freeRectangles, ¬ fitsAnyBranch 20 20 20 f) ∧
    (GuillotineBinPack3d.Insert guillotineTwoFreeRun 20 20 20 false .RectBestAreaFit
      .SplitShorterLeftoverAxis).1 = zeroRect3d ∧
    (GuillotineBinPack3d.Insert guillotineTwoFreeRun 20 20 20 false .RectBestAreaFit
      .SplitShorterLeftoverAxis).2.usedRectangles = guillotineTwoFreeRun.usedRectangles ∧
    (GuillotineBinPack3d.Insert guillotineTwoFreeRun 20 20 20 false .RectBestAreaFit
      .SplitShorterLeftoverAxis).2.freeRectangles ≠ guillotineTwoFreeRun.freeRectangles := by
  decide

/-! ## C7: the "up" split volume -/

/-- **C7 counterexample**: splitting free volume `(0,0,0,10,10,10)` by a
box `(0,0,0,4,3,5)` produces an "up" volume of footprint `4×3` (the
placed box's), not `10×10` (the free volume's): no produced volume above
the placed box spans the free volume's footprint. -/
theorem split_up_volume_not_full_footprint :
    GuillotineBinPack3d.SplitFreeRectAlongAxis ⟨0, 0, 0, 10, 10, 10⟩ ⟨0, 0, 0, 4, 3, 5⟩ true
      = [⟨0, 0, 5, 4, 3, 5⟩, ⟨0, 3, 0, 10, 7, 10⟩, ⟨4, 0, 0, 6, 3, 10⟩] ∧
    ∀ r ∈ GuillotineBinPack3d.SplitFreeRectAlongAxis ⟨0, 0, 0, 10, 10, 10⟩
        ⟨0, 0, 0, 4, 3, 5⟩ true,
      ¬(r.z = 5 ∧ r.width = 10 ∧ r.height = 10) := by
  decide

/-! ## C8: occupancy bound -/

/-- Two stacked `(10,10,5)` boxes in a `10×10×10` max-rects bin. -/
def maxrectsStackRun : MaxRectsBinPack :=
  (MaxRectsBinPack.Insert
    ((MaxRectsBinPack.Insert (MaxRectsBinPack.Init 10 10 10 true) 10 10 5
      .RectBottomLeftRule).2) 10 10 5 .RectBottomLeftRule).2

/-- **C8 counterexample**: after stacking two full-footprint boxes the
max-rects `Occupancy` (a 2D-footprint ratio) is 2, refuting the claimed
bound `occupancy() ∈ [0,1]`. -/
theorem maxrects_occupancy_exceeds_one :
    maxrectsStackRun.usedRectangles.length = 2 ∧
    1 < MaxRectsBinPack.Occupancy maxrectsStackRun := by
  have h : maxrectsStackRun =
      { binWidth := 10, binHeight := 10, binDepth := 10, binAllowFlip := true
        usedRectangles := [⟨0, 0, 0, 10, 10, 5⟩, ⟨0, 0, 5, 10, 10, 5⟩]
        freeRectangles := [] } := by decide
  refine ⟨by rw [h]; rfl, ?_⟩
  rw [h, MaxRectsBinPack.Occupancy]
  norm_num

/-! ## C9: degenerate requests are placed -/

/-- **C9 counterexample**: inserting the degenerate size `(0,5,5)` into
a fresh `10×10×10` guillotine bin appends a zero-width box to the
placed-box set (the only drop rule is `height = 0` of the found node),
and the pairwise predicate `DisjointPair` has no degeneracy special
case: it reports a zero-width box at an interior plane as not disjoint. -/
theorem degenerate_insert_places_box :
    (GuillotineBinPack3d.Insert (GuillotineBinPack3d.Init 10 10 10) 0 5 5 false
      .RectBestAreaFit .SplitShorterLeftoverAxis).2.usedRectangles
      = [⟨0, 0, 0, 0, 5, 5⟩] ∧
    DisjointRectCollection3d.DisjointPair ⟨1, 1, 1, 0, 5, 5⟩ ⟨0, 0, 0, 5, 5, 5⟩ = false := by
  decide

/-! ## C4 amended: the single-box scan is first-fit and score-blind -/

/-- `findPos` finds nothing when no free volume fits in either
orientation (each of the four scan guards implies `fitsAnyBranch`). -/
theorem findPos_none_of_noFit (width height depth : Int) (l : List Rect3d)
    (h : ∀ f ∈ l, ¬ fitsAnyBranch width height depth f) :
    GuillotineBinPack3d.findPos width height depth l = none := by
  induction l with
  | nil => rfl
  | cons f rest ih =>
    have hf := h f (List.mem_cons_self f rest)
    have hrest : ∀ g ∈ rest, ¬ fitsAnyBranch width height depth g :=
      fun g hg => h g (List.mem_cons_of_mem f hg)
    simp only [GuillotineBinPack3d.findPos]
    rw [if_neg, if_neg, if_neg, if_neg]
    · rw [ih hrest]; rfl
    · intro hc; exact hf (Or.inr hc)
    · intro hc; exact hf (Or.inl hc)
    · intro hc
      exact hf (Or.inr ⟨le_of_eq hc.1, le_of_eq hc.2.1, le_of_eq hc.2.2⟩)
    · intro hc
      exact hf (Or.inl ⟨le_of_eq hc.1, le_of_eq hc.2.1, le_of_eq hc.2.2⟩)

/-- What `findPos` returns: the index of the first free volume (in scan
order) that fits in some orientation, with the node anchored at that
volume's origin and its extents the request, possibly width/height
swapped, fitting that volume. -/
theorem findPos_first_fit (width height depth : Int) (l : List Rect3d) (r : Rect3d) (i : Nat)
    (h : GuillotineBinPack3d.findPos width height depth l = some (r, i)) :
    i < l.length ∧
    fitsAnyBranch width height depth (l.getD i default) ∧
    (∀ k, k < i → ¬ fitsAnyBranch width height depth (l.getD k default)) ∧
    r.x = (l.getD i default).x ∧ r.y = (l.getD i default).y ∧ r.z = (l.getD i default).z ∧
    r.depth = depth ∧
    ((r.width = width ∧ r.height = height ∧ width ≤ (l.getD i default).width ∧
        height ≤ (l.getD i default).height ∧ depth ≤ (l.getD i default).depth) ∨
     (r.width = height ∧ r.height = width ∧ height ≤ (l.getD i default).width ∧
        width ≤ (l.getD i default).height ∧ depth ≤ (l.getD i default).depth)) := by
  induction l generalizing r i with
  | nil => simp [GuillotineBinPack3d.findPos] at h
  | cons f rest ih =>
    simp only [GuillotineBinPack3d.findPos] at h
    by_cases h1 : width = f.width ∧ height = f.height ∧ depth = f.depth
    · rw [if_pos h1] at h
      obtain ⟨hr, hi⟩ := Prod.mk.injEq .. ▸ Option.some.inj h
      subst hi
      refine ⟨by simp, ?_, by omega, by simp [← hr], by simp [← hr], by simp [← hr],
        by simp [← hr], ?_⟩
      · exact Or.inl ⟨le_of_eq h1.1, le_of_eq h1.2.1, le_of_eq h1.2.2⟩
      · exact Or.inl (by simp [← hr]; exact ⟨le_of_eq h1.1, le_of_eq h1.2.1, le_of_eq h1.2.2⟩)
    · rw [if_neg h1] at h
      by_cases h2 : height = f.width ∧ width = f.height ∧ depth = f.depth
      · rw [if_pos h2] at h
        obtain ⟨hr, hi⟩ := Prod.mk.injEq .. ▸ Option.some.inj h
        subst hi
        refine ⟨by simp, ?_, by omega, by simp [← hr], by simp [← hr], by simp [← hr],
          by simp [← hr], ?_⟩
        · exact Or.inr ⟨le_of_eq h2.1, le_of_eq h2.2.1, le_of_eq h2.2.2⟩
        · exact Or.inr (by simp [← hr]; exact ⟨le_of_eq h2.1, le_of_eq h2.2.1, le_of_eq h2.2.2⟩)
      · rw [if_neg h2] at h
        by_cases h3 : width ≤ f.width ∧ height ≤ f.height ∧ depth ≤ f.depth
        · rw [if_pos h3] at h
          obtain ⟨hr, hi⟩ := Prod.mk.injEq .. ▸ Option.some.inj h
          subst hi
          refine ⟨by simp, Or.inl h3, by omega, by simp [← hr], by simp [← hr], by simp [← hr],
            by simp [← hr], Or.inl (by simp [← hr]; exact h3)⟩
        · rw [if_neg h3] at h
          by_cases h4 : height ≤ f.width ∧ width ≤ f.height ∧ depth ≤ f.depth
          · rw [if_pos h4] at h
            obtain ⟨hr, hi⟩ := Prod.mk.injEq .. ▸ Option.some.inj h
            subst hi
            refine ⟨by simp, Or.inr h4, by omega, by simp [← hr], by simp [← hr], by simp [← hr],
              by simp [← hr], Or.inr (by simp [← hr]; exact h4)⟩
          · rw [if_neg h4] at h
            rcases Option.map_eq_some'.mp h with ⟨⟨r0, i0⟩, hrec, heq⟩
            obtain ⟨hr, hi⟩ := Prod.mk.injEq .. ▸ heq
            obtain ⟨hlen, hfit, hmin, hx, hy, hz, hd, hdims⟩ := ih r0 i0 hrec
            subst hr
            have hnotf : ¬ fitsAnyBranch width height depth f := by
              intro hc; rcases hc with hc | hc
              · exact h3 hc
              · exact h4 hc
            refine ⟨by simp [← hi]; omega, ?_, ?_, ?_, ?_, ?_, ?_, ?_⟩
            · rw [← hi]; simpa using hfit
            · intro k hk
              rw [← hi] at hk
              match k with
              | 0 => simpa using hnotf
              | Nat.succ k0 => simpa using hmin k0 (by omega)
            · rw [← hi]; simpa using hx
            · rw [← hi]; simpa using hy
            · rw [← hi]; simpa using hz
            · exact hd
            · rw [← hi]; simpa using hdims

/-- The first-fit contract of the single-box guillotine `Insert`: an index
into the sorted free list exists such that the chosen volume is the
first fitting one and the returned node is anchored at its origin. -/
def FirstFitResult (st : GuillotineBinPack3d) (width height depth : Int) (r : Rect3d) : Prop :=
  ∃ i,
    i < (GuillotineBinPack3d.sortFreeRectsByZ st.binWidth st.binHeight st.freeRectangles).length ∧
    fitsAnyBranch width height depth
      ((GuillotineBinPack3d.sortFreeRectsByZ st.binWidth st.binHeight st.freeRectangles).getD i
        default) ∧
    (∀ k, k < i → ¬ fitsAnyBranch width height depth
      ((GuillotineBinPack3d.sortFreeRectsByZ st.binWidth st.binHeight st.freeRectangles).getD k
        default)) ∧
    r.x = ((GuillotineBinPack3d.sortFreeRectsByZ st.binWidth st.binHeight
      st.freeRectangles).getD i default).x ∧
    r.y = ((GuillotineBinPack3d.sortFreeRectsByZ st.binWidth st.binHeight
      st.freeRectangles).getD i default).y ∧
    r.z = ((GuillotineBinPack3d.sortFreeRectsByZ st.binWidth st.binHeight
      st.freeRectangles).getD i default).z ∧
    r.depth = depth ∧
    ((r.width = width ∧ r.height = height) ∨ (r.width = height ∧ r.height = width))

/-- **C4 amended**: the single-box guillotine `Insert` ignores its
scoring-rule argument entirely (any two rules give identical results),
and a successful call places the box at the origin of the *first* free
volume, in the sorted scan order, that fits in some orientation — no
minimum-score selection occurs. -/
theorem guillotine_insertOne_first_fit (st : GuillotineBinPack3d)
    (width height depth : Int) (merge : Bool) (c1 c2 : FreeRectChoiceHeuristic)
    (s : GuillotineSplitHeuristic)
    (hplaced : (GuillotineBinPack3d.Insert st width height depth merge c1 s).1.height ≠ 0) :
    GuillotineBinPack3d.Insert st width height depth merge c2 s
      = GuillotineBinPack3d.Insert st width height depth merge c1 s ∧
    FirstFitResult st width height depth
      (GuillotineBinPack3d.Insert st width height depth merge c1 s).1 := by
  refine ⟨rfl, ?_⟩
  rcases hfp : GuillotineBinPack3d.findPos width height depth
      (GuillotineBinPack3d.sortFreeRectsByZ st.binWidth st.binHeight st.freeRectangles) with
    _ | ⟨r0, i0⟩
  · exfalso
    apply hplaced
    simp only [GuillotineBinPack3d.Insert, hfp]
    rfl
  · have hres : (GuillotineBinPack3d.Insert st width height depth merge c1 s).1 = r0 := by
      simp only [GuillotineBinPack3d.Insert, hfp]
      by_cases hz : r0.height = 0
      · rw [if_pos hz]
      · rw [if_neg hz]
    rw [hres]
    obtain ⟨hlen, hfit, hmin, hx, hy, hz, hd, hdims⟩ :=
      findPos_first_fit width height depth _ r0 i0 hfp
    exact ⟨i0, hlen, hfit, hmin, hx, hy, hz, hd, by
      rcases hdims with ⟨e1, e2, _⟩ | ⟨e1, e2, _⟩
      · exact Or.inl ⟨e1, e2⟩
      · exact Or.inr ⟨e1, e2⟩⟩

/-- Witness for `guillotine_insertOne_first_fit` at a concrete input. -/
theorem guillotine_insertOne_first_fit_witness :
    ((GuillotineBinPack3d.Insert (GuillotineBinPack3d.Init 10 10 10) 4 4 10 false
      .RectBestAreaFit .SplitShorterLeftoverAxis).1.height ≠ 0) ∧
    (GuillotineBinPack3d.Insert (GuillotineBinPack3d.Init 10 10 10) 4 4 10 false
        .RectWorstAreaFit .SplitShorterLeftoverAxis
      = GuillotineBinPack3d.Insert (GuillotineBinPack3d.Init 10 10 10) 4 4 10 false
        .RectBestAreaFit .SplitShorterLeftoverAxis ∧
     FirstFitResult (GuillotineBinPack3d.Init 10 10 10) 4 4 10
       (GuillotineBinPack3d.Insert (GuillotineBinPack3d.Init 10 10 10) 4 4 10 false
         .RectBestAreaFit .SplitShorterLeftoverAxis).1) :=
  ⟨by decide,
   guillotine_insertOne_first_fit (GuillotineBinPack3d.Init 10 10 10) 4 4 10 false
     .RectBestAreaFit .RectWorstAreaFit .SplitShorterLeftoverAxis (by decide)⟩

/-! ## C5 amended: a no-fit insert only reorders the free list -/

/-- No free volume of the guillotine state fits the request in either
orientation. -/
def gNoFit (width height depth : Int) (st : GuillotineBinPack3d) : Prop :=
  ∀ f ∈ st.freeRectangles, ¬ fitsAnyBranch width height depth f

instance (width height depth : Int) (st : GuillotineBinPack3d) :
    Decidable (gNoFit width height depth st) := by
  unfold gNoFit; infer_instance

/-- No free volume of the max-rects state passes either acceptance
guard (fit plus support test) for the request. -/
def mrNoFit (width height depth : Int) (st : MaxRectsBinPack) : Prop :=
  ∀ f ∈ st.freeRectangles,
    ¬ MaxRectsBinPack.uprightOk width height depth f ∧
    ¬ MaxRectsBinPack.flippedOk width height depth st.binAllowFlip f

instance (width height depth : Int) (st : MaxRectsBinPack) :
    Decidable (mrNoFit width height depth st) := by
  unfold mrNoFit; infer_instance

/-- `findBottomLeft` finds nothing when no free volume passes either
guard, whatever the incoming `blocked` flag. -/
theorem findBottomLeft_none (width height depth : Int) (flip : Bool) (used : List Rect3d)
    (l : List FreeRect3d)
    (h : ∀ f ∈ l, ¬ MaxRectsBinPack.uprightOk width height depth f ∧
      ¬ MaxRectsBinPack.flippedOk width height depth flip f) :
    ∀ b, MaxRectsBinPack.findBottomLeft width height depth flip used l b = none := by
  induction l with
  | nil => intro b; rfl
  | cons f rest ih =>
    intro b
    have hf := h f (List.mem_cons_self f rest)
    have hrest : ∀ g ∈ rest, ¬ MaxRectsBinPack.uprightOk width height depth g ∧
        ¬ MaxRectsBinPack.flippedOk width height depth flip g :=
      fun g hg => h g (List.mem_cons_of_mem f hg)
    simp only [MaxRectsBinPack.findBottomLeft]
    rw [if_neg hf.1, if_neg hf.2]
    exact ih hrest b

/-- **C5 amended**: a request that fits nowhere returns the zero-extent
rectangle and leaves the placed-box set and the free-volume *multiset*
unchanged for both packers — but the free list may come back in a
different order (the pre-search sort is not undone), so the state is
only unchanged up to permutation, not byte-for-byte. -/
theorem no_fit_insert_changes_only_order
    (st : GuillotineBinPack3d) (width height depth : Int) (merge : Bool)
    (c : FreeRectChoiceHeuristic) (s : GuillotineSplitHeuristic)
    (hg : gNoFit width height depth st)
    (mst : MaxRectsBinPack) (w2 h2 d2 : Int) (meth : MaxRectsChoiceHeuristic)
    (hm : mrNoFit w2 h2 d2 mst) :
    ((GuillotineBinPack3d.Insert st width height depth merge c s).1 = zeroRect3d ∧
     (GuillotineBinPack3d.Insert st width height depth merge c s).2.usedRectangles
       = st.usedRectangles ∧
     ((GuillotineBinPack3d.Insert st width height depth merge c s).2.freeRectangles).Perm
       st.freeRectangles) ∧
    ((MaxRectsBinPack.Insert mst w2 h2 d2 meth).1 = zeroRect3d ∧
     (MaxRectsBinPack.Insert mst w2 h2 d2 meth).2.usedRectangles = mst.usedRectangles ∧
     ((MaxRectsBinPack.Insert mst w2 h2 d2 meth).2.freeRectangles).Perm
       mst.freeRectangles) := by
  constructor
  · have hperm : (GuillotineBinPack3d.sortFreeRectsByZ st.binWidth st.binHeight
        st.freeRectangles).Perm st.freeRectangles := sortBy_perm _ _
    have hnone : GuillotineBinPack3d.findPos width height depth
        (GuillotineBinPack3d.sortFreeRectsByZ st.binWidth st.binHeight st.freeRectangles)
        = none :=
      findPos_none_of_noFit _ _ _ _ fun f hf => hg f (hperm.mem_iff.mp hf)
    refine ⟨?_, ?_, ?_⟩ <;> simp only [GuillotineBinPack3d.Insert, hnone]
    · exact hperm
  · have hperm : (MaxRectsBinPack.sortFreeSpace mst.freeRectangles).Perm
        mst.freeRectangles := sortBy_perm _ _
    have hnone : MaxRectsBinPack.findBottomLeft w2 h2 d2 mst.binAllowFlip
        mst.usedRectangles (MaxRectsBinPack.sortFreeSpace mst.freeRectangles) false
        = none :=
      findBottomLeft_none _ _ _ _ _ _ (fun f hf => hm f (hperm.mem_iff.mp hf)) false
    have hfind : MaxRectsBinPack.FindPositionForNewNodeBottomLeft
        { mst with freeRectangles := MaxRectsBinPack.sortFreeSpace mst.freeRectangles }
        w2 h2 d2 = zeroRect3d := by
      simp only [MaxRectsBinPack.FindPositionForNewNodeBottomLeft]
      rw [hnone]
    refine ⟨?_, ?_, ?_⟩ <;> simp only [MaxRectsBinPack.Insert, hfind] <;>
      simp only [zeroRect3d, if_pos]
    · exact hperm

/-- Witness for `no_fit_insert_changes_only_order` at concrete no-fit
inputs. -/
theorem no_fit_insert_changes_only_order_witness :
    gNoFit 5 5 5 (GuillotineBinPack3d.Init 2 2 2) ∧
    mrNoFit 5 5 5 (MaxRectsBinPack.Init 2 2 2 true) ∧
    (((GuillotineBinPack3d.Insert (GuillotineBinPack3d.Init 2 2 2) 5 5 5 false
        .RectBestAreaFit .SplitShorterLeftoverAxis).1 = zeroRect3d ∧
      (GuillotineBinPack3d.Insert (GuillotineBinPack3d.Init 2 2 2) 5 5 5 false
        .RectBestAreaFit .SplitShorterLeftoverAxis).2.usedRectangles
        = (GuillotineBinPack3d.Init 2 2 2).usedRectangles ∧
      ((GuillotineBinPack3d.Insert (GuillotineBinPack3d.Init 2 2 2) 5 5 5 false
        .RectBestAreaFit .SplitShorterLeftoverAxis).2.freeRectangles).Perm
        (GuillotineBinPack3d.Init 2 2 2).freeRectangles) ∧
     ((MaxRectsBinPack.Insert (MaxRectsBinPack.Init 2 2 2 true) 5 5 5
        .RectBottomLeftRule).1 = zeroRect3d ∧
      (MaxRectsBinPack.Insert (MaxRectsBinPack.Init 2 2 2 true) 5 5 5
        .RectBottomLeftRule).2.usedRectangles
        = (MaxRectsBinPack.Init 2 2 2 true).usedRectangles ∧
      ((MaxRectsBinPack.Insert (MaxRectsBinPack.Init 2 2 2 true) 5 5 5
        .RectBottomLeftRule).2.freeRectangles).Perm
        (MaxRectsBinPack.Init 2 2 2 true).freeRectangles)) :=
  ⟨by decide, by decide,
   no_fit_insert_changes_only_order (GuillotineBinPack3d.Init 2 2 2) 5 5 5 false
     .RectBestAreaFit .SplitShorterLeftoverAxis (by decide)
     (MaxRectsBinPack.Init 2 2 2 true) 5 5 5 .RectBottomLeftRule (by decide)⟩

/-! ## C7 amended: the "up" volume spans the placed box's footprint -/

/-- **C7 amended**: the "up" free volume produced by the guillotine
split spans the *placed box's* x,y footprint anchored at the free
volume's origin (width/height are the placed box's, not the free
volume's) and sits above the placed box in z with depth
`freeRect.depth − placedRect.depth`; it is the unique product whose z
origin differs from the free volume's. -/
theorem split_up_volume_spans_placed_footprint
    (freeRect placedRect : Rect3d) (splitHorizontal : Bool)
    (hw : 0 < placedRect.width) (hh : 0 < placedRect.height)
    (hd : 0 < placedRect.depth) (hlt : placedRect.depth < freeRect.depth) :
    (⟨freeRect.x, freeRect.y, freeRect.z + placedRect.depth, placedRect.width,
        placedRect.height, freeRect.depth - placedRect.depth⟩ : Rect3d)
      ∈ GuillotineBinPack3d.SplitFreeRectAlongAxis freeRect placedRect splitHorizontal ∧
    ∀ r ∈ GuillotineBinPack3d.SplitFreeRectAlongAxis freeRect placedRect splitHorizontal,
      r.z ≠ freeRect.z →
      r = ⟨freeRect.x, freeRect.y, freeRect.z + placedRect.depth, placedRect.width,
        placedRect.height, freeRect.depth - placedRect.depth⟩ := by
  constructor
  · simp only [GuillotineBinPack3d.SplitFreeRectAlongAxis]
    rw [if_pos ⟨hw, hh, by omega⟩]
    simp
  · intro r hr hz
    simp only [GuillotineBinPack3d.SplitFreeRectAlongAxis, List.mem_append,
      List.mem_ite_nil_right, List.mem_singleton] at hr
    rcases hr with (⟨_, hr⟩ | ⟨_, hr⟩) | ⟨_, hr⟩
    · exact hr
    · exfalso; apply hz; rw [hr]
    · exfalso; apply hz; rw [hr]

/-- Witness for `split_up_volume_spans_placed_footprint` at a concrete
split. -/
theorem split_up_volume_spans_placed_footprint_witness :
    ((0 : Int) < 4 ∧ (0 : Int) < 3 ∧ (0 : Int) < 5 ∧ (5 : Int) < 10) ∧
    ((⟨0, 0, 5, 4, 3, 5⟩ : Rect3d)
      ∈ GuillotineBinPack3d.SplitFreeRectAlongAxis ⟨0, 0, 0, 10, 10, 10⟩
        ⟨0, 0, 0, 4, 3, 5⟩ true ∧
     ∀ r ∈ GuillotineBinPack3d.SplitFreeRectAlongAxis ⟨0, 0, 0, 10, 10, 10⟩
        ⟨0, 0, 0, 4, 3, 5⟩ true,
       r.z ≠ (0 : Int) → r = ⟨0, 0, 5, 4, 3, 5⟩) :=
  ⟨⟨by decide, by decide, by decide, by decide⟩,
   split_up_volume_spans_placed_footprint ⟨0, 0, 0, 10, 10, 10⟩ ⟨0, 0, 0, 4, 3, 5⟩ true
     (by decide) (by decide) (by decide) (by decide)⟩

/-! ## C9 amended: what the code actually does with degenerate inputs -/

/-- The placed-box set after a single-box guillotine `Insert`: unchanged
exactly when the found node's height is zero, else extended by that
node.  (This is the code's only drop rule — it is a height test, not a
degeneracy test.) -/
theorem gInsert_used_eq (st : GuillotineBinPack3d) (width height depth : Int) (m : Bool)
    (c : FreeRectChoiceHeuristic) (s : GuillotineSplitHeuristic) :
    (GuillotineBinPack3d.Insert st width height depth m c s).2.usedRectangles
      = if (GuillotineBinPack3d.Insert st width height depth m c s).1.height = 0
        then st.usedRectangles
        else st.usedRectangles ++ [(GuillotineBinPack3d.Insert st width height depth m c s).1] := by
  rcases hfp : GuillotineBinPack3d.findPos width height depth
      (GuillotineBinPack3d.sortFreeRectsByZ st.binWidth st.binHeight st.freeRectangles) with
    _ | ⟨r0, i0⟩
  · simp only [GuillotineBinPack3d.Insert, hfp]
    rw [if_pos (show zeroRect3d.height = 0 from rfl)]
  · by_cases hz : r0.height = 0
    · simp only [GuillotineBinPack3d.Insert, hfp, if_pos hz]
    · simp only [GuillotineBinPack3d.Insert, hfp, if_neg hz]

/-- The placed-box set after a max-rects `Insert`: same shape of drop
rule as the guillotine packer. -/
theorem mrInsert_used_eq (st : MaxRectsBinPack) (width height depth : Int)
    (meth : MaxRectsChoiceHeuristic) :
    (MaxRectsBinPack.Insert st width height depth meth).2.usedRectangles
      = if (MaxRectsBinPack.Insert st width height depth meth).1.height = 0
        then st.usedRectangles
        else st.usedRectangles ++ [(MaxRectsBinPack.Insert st width height depth meth).1] := by
  by_cases hz : (MaxRectsBinPack.FindPositionForNewNodeBottomLeft
      { st with freeRectangles := MaxRectsBinPack.sortFreeSpace st.freeRectangles }
      width height depth).height = 0
  · simp only [MaxRectsBinPack.Insert, if_pos hz]
  · simp only [MaxRectsBinPack.Insert, if_neg hz]

/-- **C9 amended**: the degeneracy handling the code actually has: the
collection-level oracle (`DisjointOne` and `Add`) treats any
zero-extent box as trivially disjoint and accepts it without inserting,
while the two-box predicate `DisjointPair` has no degeneracy case; and
an insert request is dropped (placed-box set unchanged) exactly when
the found node's *height* is zero — zero-width or zero-depth requests
can still be placed (see the counterexample). -/
theorem degenerate_handling_actual
    (c : DisjointRectCollection3d) (r : Rect3d)
    (hdeg : r.width = 0 ∨ r.height = 0 ∨ r.depth = 0)
    (st : GuillotineBinPack3d) (width height depth : Int) (m : Bool)
    (ch : FreeRectChoiceHeuristic) (s : GuillotineSplitHeuristic)
    (hz : (GuillotineBinPack3d.Insert st width height depth m ch s).1.height = 0)
    (mst : MaxRectsBinPack) (w2 h2 d2 : Int) (meth : MaxRectsChoiceHeuristic)
    (hz2 : (MaxRectsBinPack.Insert mst w2 h2 d2 meth).1.height = 0) :
    c.DisjointOne r = true ∧ c.Add r = (true, c) ∧
    (GuillotineBinPack3d.Insert st width height depth m ch s).2.usedRectangles
      = st.usedRectangles ∧
    (MaxRectsBinPack.Insert mst w2 h2 d2 meth).2.usedRectangles = mst.usedRectangles := by
  refine ⟨?_, ?_, ?_, ?_⟩
  · simp only [DisjointRectCollection3d.DisjointOne, if_pos hdeg]
  · simp only [DisjointRectCollection3d.Add, if_pos hdeg]
  · rw [gInsert_used_eq, if_pos hz]
  · rw [mrInsert_used_eq, if_pos hz2]

/-- Witness for `degenerate_handling_actual` at concrete inputs (a
zero-width box against a nonempty collection; zero-height requests to
both packers). -/
theorem degenerate_handling_actual_witness :
    (((⟨0, 0, 0, 0, 1, 1⟩ : Rect3d).width = 0 ∨ (⟨0, 0, 0, 0, 1, 1⟩ : Rect3d).height = 0 ∨
        (⟨0, 0, 0, 0, 1, 1⟩ : Rect3d).depth = 0) ∧
     (GuillotineBinPack3d.Insert (GuillotineBinPack3d.Init 4 4 4) 2 0 2 false
       .RectBestAreaFit .SplitShorterLeftoverAxis).1.height = 0 ∧
     (MaxRectsBinPack.Insert (MaxRectsBinPack.Init 4 4 4 false) 2 0 2
       .RectBottomLeftRule).1.height = 0) ∧
    ((DisjointRectCollection3d.mk [⟨0, 0, 0, 3, 3, 3⟩]).DisjointOne ⟨0, 0, 0, 0, 1, 1⟩ = true ∧
     (DisjointRectCollection3d.mk [⟨0, 0, 0, 3, 3, 3⟩]).Add ⟨0, 0, 0, 0, 1, 1⟩
       = (true, DisjointRectCollection3d.mk [⟨0, 0, 0, 3, 3, 3⟩]) ∧
     (GuillotineBinPack3d.Insert (GuillotineBinPack3d.Init 4 4 4) 2 0 2 false
       .RectBestAreaFit .SplitShorterLeftoverAxis).2.usedRectangles
       = (GuillotineBinPack3d.Init 4 4 4).usedRectangles ∧
     (MaxRectsBinPack.Insert (MaxRectsBinPack.Init 4 4 4 false) 2 0 2
       .RectBottomLeftRule).2.usedRectangles
       = (MaxRectsBinPack.Init 4 4 4 false).usedRectangles) :=
  ⟨⟨by decide, by decide, by decide⟩,
   degenerate_handling_actual (DisjointRectCollection3d.mk [⟨0, 0, 0, 3, 3, 3⟩])
     ⟨0, 0, 0, 0, 1, 1⟩ (by decide) (GuillotineBinPack3d.Init 4 4 4) 2 0 2 false
     .RectBestAreaFit .SplitShorterLeftoverAxis (by decide)
     (MaxRectsBinPack.Init 4 4 4 false) 2 0 2 .RectBottomLeftRule (by decide)⟩

/-! ## Operation sequences over the two packers -/

/-- One public guillotine operation: a single-box insert or a batch
insert (with all heuristic parameters). -/
inductive GOp where
  | one (width height depth : Int) (merge : Bool)
      (rectChoice : FreeRectChoiceHeuristic) (splitMethod : GuillotineSplitHeuristic)
  | batch (rects : List RectSize3d) (merge : Bool)
      (rectChoice : FreeRectChoiceHeuristic) (splitMethod : GuillotineSplitHeuristic)

/-- Apply one guillotine operation to a state. -/
def GOp.apply (st : GuillotineBinPack3d) : GOp → GuillotineBinPack3d
  | .one w h d m c s => (GuillotineBinPack3d.Insert st w h d m c s).2
  | .batch rs m c s => GuillotineBinPack3d.InsertBatch st rs m c s

/-- Apply a sequence of guillotine operations. -/
def applyGOps (st : GuillotineBinPack3d) (ops : List GOp) : GuillotineBinPack3d :=
  ops.foldl GOp.apply st

/-- All sizes of an operation are nonnegative (the spec's caller
contract rejects non-positive dimensions at the boundary; nonnegative
is the weaker hypothesis the proofs need). -/
def GOp.sizesNonneg : GOp → Prop
  | .one w h d _ _ _ => 0 ≤ w ∧ 0 ≤ h ∧ 0 ≤ d
  | .batch rs _ _ _ => ∀ r ∈ rs, 0 ≤ r.width ∧ 0 ≤ r.height ∧ 0 ≤ r.depth

instance (op : GOp) : Decidable op.sizesNonneg := by
  cases op <;> (unfold GOp.sizesNonneg; infer_instance)

/-- Apply a sequence of max-rects single-box inserts (the bottom-left
rule, the only one the source implements). -/
def applyMOps (st : MaxRectsBinPack) (ops : List RectSize3d) : MaxRectsBinPack :=
  ops.foldl
    (fun s r => (MaxRectsBinPack.Insert s r.width r.height r.depth .RectBottomLeftRule).2) st

/-- Elements fetched by `getD` below an in-range index are members. -/
theorem getD_mem_of_lt {α : Type} (l : List α) (i : Nat) (d : α) (h : i < l.length) :
    l.getD i d ∈ l := by
  rw [List.getD_eq_getElem?_getD, List.getElem?_eq_getElem h]
  exact List.getElem_mem h

/-- Dimensions of the node a successful single-box guillotine `Insert`
returns: the requested depth, and the requested width/height possibly
swapped. -/
theorem gInsert_node_dims (st : GuillotineBinPack3d) (width height depth : Int) (m : Bool)
    (c : FreeRectChoiceHeuristic) (s : GuillotineSplitHeuristic)
    (hz : (GuillotineBinPack3d.Insert st width height depth m c s).1.height ≠ 0) :
    (GuillotineBinPack3d.Insert st width height depth m c s).1.depth = depth ∧
    (((GuillotineBinPack3d.Insert st width height depth m c s).1.width = width ∧
      (GuillotineBinPack3d.Insert st width height depth m c s).1.height = height) ∨
     ((GuillotineBinPack3d.Insert st width height depth m c s).1.width = height ∧
      (GuillotineBinPack3d.Insert st width height depth m c s).1.height = width)) := by
  rcases hfp : GuillotineBinPack3d.findPos width height depth
      (GuillotineBinPack3d.sortFreeRectsByZ st.binWidth st.binHeight st.freeRectangles) with
    _ | ⟨r0, i0⟩
  · exfalso; apply hz; simp only [GuillotineBinPack3d.Insert, hfp]; rfl
  · have hres : (GuillotineBinPack3d.Insert st width height depth m c s).1 = r0 := by
      simp only [GuillotineBinPack3d.Insert, hfp]
      by_cases h0 : r0.height = 0
      · rw [if_pos h0]
      · rw [if_neg h0]
    rw [hres]
    obtain ⟨_, _, _, _, _, _, hd, hdims⟩ := findPos_first_fit width height depth _ r0 i0 hfp
    exact ⟨hd, by
      rcases hdims with ⟨e1, e2, _⟩ | ⟨e1, e2, _⟩
      · exact Or.inl ⟨e1, e2⟩
      · exact Or.inr ⟨e1, e2⟩⟩

/-- Bin dimensions are untouched by the single-box guillotine `Insert`. -/
theorem gInsert_bin_eq (st : GuillotineBinPack3d) (width height depth : Int) (m : Bool)
    (c : FreeRectChoiceHeuristic) (s : GuillotineSplitHeuristic) :
    (GuillotineBinPack3d.Insert st width height depth m c s).2.binWidth = st.binWidth ∧
    (GuillotineBinPack3d.Insert st width height depth m c s).2.binHeight = st.binHeight ∧
    (GuillotineBinPack3d.Insert st width height depth m c s).2.binDepth = st.binDepth := by
  rcases hfp : GuillotineBinPack3d.findPos width height depth
      (GuillotineBinPack3d.sortFreeRectsByZ st.binWidth st.binHeight st.freeRectangles) with
    _ | ⟨r0, i0⟩
  · refine ⟨?_, ?_, ?_⟩ <;> simp [GuillotineBinPack3d.Insert, hfp]
  · by_cases h0 : r0.height = 0 <;>
      refine ⟨?_, ?_, ?_⟩ <;> simp [GuillotineBinPack3d.Insert, hfp, h0]

/-- Effect of a single guillotine operation on the placed-box set: it is
extended by boxes whose dimensions are nonnegative whenever the
operation's sizes are, and the bin dimensions are preserved. -/
theorem gApply_extends (st : GuillotineBinPack3d) (op : GOp) (hop : op.sizesNonneg) :
    ∃ extra, (GOp.apply st op).usedRectangles = st.usedRectangles ++ extra ∧
      (∀ b ∈ extra, 0 ≤ b.width ∧ 0 ≤ b.height ∧ 0 ≤ b.depth) ∧
      (GOp.apply st op).binWidth = st.binWidth ∧
      (GOp.apply st op).binHeight = st.binHeight ∧
      (GOp.apply st op).binDepth = st.binDepth := by
  cases op with
  | one w h d m c s =>
    obtain ⟨hw, hh, hd⟩ := hop
    by_cases hz : (GuillotineBinPack3d.Insert st w h d m c s).1.height = 0
    · refine ⟨[], ?_, by simp, (gInsert_bin_eq st w h d m c s).1,
        (gInsert_bin_eq st w h d m c s).2.1, (gInsert_bin_eq st w h d m c s).2.2⟩
      rw [GOp.apply, gInsert_used_eq, if_pos hz, List.append_nil]
    · refine ⟨[(GuillotineBinPack3d.Insert st w h d m c s).1], ?_, ?_,
        (gInsert_bin_eq st w h d m c s).1, (gInsert_bin_eq st w h d m c s).2.1,
        (gInsert_bin_eq st w h d m c s).2.2⟩
      · rw [GOp.apply, gInsert_used_eq, if_neg hz]
      · intro b hb
        rw [List.mem_singleton.mp hb]
        obtain ⟨hdep, hdims⟩ := gInsert_node_dims st w h d m c s hz
        rcases hdims with ⟨e1, e2⟩ | ⟨e1, e2⟩ <;> rw [hdep, e1, e2] <;> exact ⟨by omega, by omega, hd⟩
  | batch rs m c s =>
    suffices hloop : ∀ (fuel : Nat) (st1 : GuillotineBinPack3d) (rects : List RectSize3d),
        (∀ r ∈ rects, 0 ≤ r.width ∧ 0 ≤ r.height ∧ 0 ≤ r.depth) →
        ∃ extra,
          (GuillotineBinPack3d.batchLoop m c s fuel st1 rects).usedRectangles
            = st1.usedRectangles ++ extra ∧
          (∀ b ∈ extra, 0 ≤ b.width ∧ 0 ≤ b.height ∧ 0 ≤ b.depth) ∧
          (GuillotineBinPack3d.batchLoop m c s fuel st1 rects).binWidth = st1.binWidth ∧
          (GuillotineBinPack3d.batchLoop m c s fuel st1 rects).binHeight = st1.binHeight ∧
          (GuillotineBinPack3d.batchLoop m c s fuel st1 rects).binDepth = st1.binDepth by
      exact hloop rs.length st rs hop
    intro fuel
    induction fuel with
    | zero =>
      intro st1 rects _
      refine ⟨[], ?_, ?_, rfl, rfl, rfl⟩
      · simp [GuillotineBinPack3d.batchLoop]
      · intro b hb; simp at hb
    | succ fuel ih =>
      intro st1 rects hno
      match rects with
      | [] =>
        refine ⟨[], ?_, ?_, rfl, rfl, rfl⟩
        · simp [GuillotineBinPack3d.batchLoop]
        · intro b hb; simp at hb
      | r :: rs0 =>
        simp only [GuillotineBinPack3d.batchLoop]
        by_cases hsc : (GuillotineBinPack3d.batchScan st1 (r :: rs0) c).bestScore = intMax
        · rw [if_pos hsc]
          refine ⟨[], by simp, ?_, rfl, rfl, rfl⟩
          intro b hb; simp at hb
        · rw [if_neg hsc]
          by_cases hidx : (GuillotineBinPack3d.batchScan st1 (r :: rs0) c).bestFreeRect
              < st1.freeRectangles.length ∧
              (GuillotineBinPack3d.batchScan st1 (r :: rs0) c).bestRect < (r :: rs0).length
          · rw [if_pos hidx]
            set best := GuillotineBinPack3d.batchScan st1 (r :: rs0) c with hbest
            set chosen := st1.freeRectangles.getD best.bestFreeRect default with hchosen
            set rsz := (r :: rs0).getD best.bestRect default with hrsz
            set nd : Rect3d :=
              { x := chosen.x, y := chosen.y, z := chosen.z
                width := if best.bestFlipped = true then rsz.height else rsz.width
                height := if best.bestFlipped = true then rsz.width else rsz.height
                depth := rsz.depth } with hnd
            have hrszmem : rsz ∈ r :: rs0 := getD_mem_of_lt _ _ _ hidx.2
            have hrsznn := hno _ hrszmem
            obtain ⟨extra, hused, hnn, hbw, hbh, hbd⟩ := ih
              { st1 with
                usedRectangles := st1.usedRectangles ++ [nd]
                freeRectangles :=
                  if m = true then
                    GuillotineBinPack3d.MergeFreeList
                      ((st1.freeRectangles ++
                        GuillotineBinPack3d.SplitFreeRectByHeuristic chosen nd s).eraseIdx
                        best.bestFreeRect)
                  else
                    (st1.freeRectangles ++
                      GuillotineBinPack3d.SplitFreeRectByHeuristic chosen nd s).eraseIdx
                      best.bestFreeRect }
              ((r :: rs0).eraseIdx best.bestRect)
              (fun q hq => hno q ((List.eraseIdx_sublist _ _).mem hq))
            refine ⟨nd :: extra, ?_, ?_, by simpa using hbw, by simpa using hbh,
              by simpa using hbd⟩
            · rw [hused]; simp
            · intro b hb
              rcases List.mem_cons.mp hb with hb | hb
              · subst hb
                refine ⟨?_, ?_, hrsznn.2.2⟩
                · show 0 ≤ nd.width
                  rw [hnd]
                  by_cases hf : best.bestFlipped = true <;> simp [hf] <;> omega
                · show 0 ≤ nd.height
                  rw [hnd]
                  by_cases hf : best.bestFlipped = true <;> simp [hf] <;> omega
              · exact hnn b hb
          · rw [if_neg hidx]
            refine ⟨[], by simp, ?_, rfl, rfl, rfl⟩
            intro b hb; simp at hb

/-- Effect of a guillotine operation sequence from any start state. -/
theorem applyGOps_extends (st : GuillotineBinPack3d) (ops : List GOp)
    (hops : ∀ op ∈ ops, op.sizesNonneg) :
    ∃ extra, (applyGOps st ops).usedRectangles = st.usedRectangles ++ extra ∧
      (∀ b ∈ extra, 0 ≤ b.width ∧ 0 ≤ b.height ∧ 0 ≤ b.depth) ∧
      (applyGOps st ops).binWidth = st.binWidth ∧
      (applyGOps st ops).binHeight = st.binHeight ∧
      (applyGOps st ops).binDepth = st.binDepth := by
  induction ops generalizing st with
  | nil => exact ⟨[], by simp [applyGOps], by simp, rfl, rfl, rfl⟩
  | cons op ops ih =>
    obtain ⟨e1, hu1, hn1, hw1, hh1, hd1⟩ := gApply_extends st op (hops op (by simp))
    obtain ⟨e2, hu2, hn2, hw2, hh2, hd2⟩ := ih (GOp.apply st op) (fun q hq => hops q (by simp [hq]))
    refine ⟨e1 ++ e2, ?_, ?_, by rw [applyGOps] at *; simpa [hw1] using hw2,
      by rw [applyGOps] at *; simpa [hh1] using hh2,
      by rw [applyGOps] at *; simpa [hd1] using hd2⟩
    · show (applyGOps (GOp.apply st op) ops).usedRectangles = _
      rw [hu2, hu1, List.append_assoc]
    · intro b hb
      rcases List.mem_append.mp hb with hb | hb
      · exact hn1 b hb
      · exact hn2 b hb

/-- What a successful `findBottomLeft` guarantees: the returned node was
checked against every placed box and found unblocked, its depth is the
request's, and its width/height are the request's, possibly swapped.
(Whenever a branch returns, the blocking loop it just ran found no
blocker, whatever the leaked `blocked` flag said before.) -/
theorem findBottomLeft_some (width height depth : Int) (flip : Bool) (used : List Rect3d)
    (l : List FreeRect3d) (b : Bool) (r : Rect3d)
    (h : MaxRectsBinPack.findBottomLeft width height depth flip used l b = some r) :
    (∀ u ∈ used, MaxRectsBinPack.isBlocked u r = false) ∧
    r.depth = depth ∧
    ((r.width = width ∧ r.height = height) ∨ (r.width = height ∧ r.height = width)) := by
  induction l generalizing b with
  | nil => simp [MaxRectsBinPack.findBottomLeft] at h
  | cons f rest ih =>
    simp only [MaxRectsBinPack.findBottomLeft] at h
    by_cases hU : MaxRectsBinPack.uprightOk width height depth f
    · rw [if_pos hU] at h
      by_cases hb1 : (b || used.any fun u =>
          MaxRectsBinPack.isBlocked u ⟨f.supportx0, f.supporty0, f.z, width, height, depth⟩)
          = false
      · rw [if_pos hb1] at h
        obtain hr := Option.some.inj h
        subst hr
        refine ⟨?_, rfl, Or.inl ⟨rfl, rfl⟩⟩
        intro u hu
        have hany := (Bool.or_eq_false_iff.mp hb1).2
        exact Bool.eq_false_iff.mpr ((List.any_eq_false.mp hany) u hu)
      · rw [if_neg hb1] at h
        by_cases hF : MaxRectsBinPack.flippedOk width height depth flip f
        · rw [if_pos hF] at h
          by_cases hb2 : (used.any fun u =>
              MaxRectsBinPack.isBlocked u ⟨f.supportx0, f.supporty0, f.z, height, width, depth⟩)
              = false
          · rw [if_pos hb2] at h
            obtain hr := Option.some.inj h
            subst hr
            refine ⟨?_, rfl, Or.inr ⟨rfl, rfl⟩⟩
            intro u hu
            exact Bool.eq_false_iff.mpr ((List.any_eq_false.mp hb2) u hu)
          · rw [if_neg hb2] at h
            exact ih _ h
        · rw [if_neg hF] at h
          exact ih _ h
    · rw [if_neg hU] at h
      by_cases hF : MaxRectsBinPack.flippedOk width height depth flip f
      · rw [if_pos hF] at h
        by_cases hb2 : (used.any fun u =>
            MaxRectsBinPack.isBlocked u ⟨f.supportx0, f.supporty0, f.z, height, width, depth⟩)
            = false
        · rw [if_pos hb2] at h
          obtain hr := Option.some.inj h
          subst hr
          refine ⟨?_, rfl, Or.inr ⟨rfl, rfl⟩⟩
          intro u hu
          exact Bool.eq_false_iff.mpr ((List.any_eq_false.mp hb2) u hu)
        · rw [if_neg hb2] at h
          exact ih _ h
      · rw [if_neg hF] at h
        exact ih _ h

/-- Bin dimensions and flip flag are untouched by the max-rects `Insert`. -/
theorem mrInsert_bin_eq (st : MaxRectsBinPack) (width height depth : Int)
    (meth : MaxRectsChoiceHeuristic) :
    (MaxRectsBinPack.Insert st width height depth meth).2.binWidth = st.binWidth ∧
    (MaxRectsBinPack.Insert st width height depth meth).2.binHeight = st.binHeight ∧
    (MaxRectsBinPack.Insert st width height depth meth).2.binDepth = st.binDepth ∧
    (MaxRectsBinPack.Insert st width height depth meth).2.binAllowFlip = st.binAllowFlip := by
  by_cases hz : (MaxRectsBinPack.FindPositionForNewNodeBottomLeft
      { st with freeRectangles := MaxRectsBinPack.sortFreeSpace st.freeRectangles }
      width height depth).height = 0 <;>
    refine ⟨?_, ?_, ?_, ?_⟩ <;> simp [MaxRectsBinPack.Insert, hz]

/-- Dimensions of the node a successful max-rects `Insert` returns. -/
theorem mrInsert_node_dims (st : MaxRectsBinPack) (width height depth : Int)
    (meth : MaxRectsChoiceHeuristic)
    (hz : (MaxRectsBinPack.Insert st width height depth meth).1.height ≠ 0) :
    (MaxRectsBinPack.Insert st width height depth meth).1.depth = depth ∧
    (((MaxRectsBinPack.Insert st width height depth meth).1.width = width ∧
      (MaxRectsBinPack.Insert st width height depth meth).1.height = height) ∨
     ((MaxRectsBinPack.Insert st width height depth meth).1.width = height ∧
      (MaxRectsBinPack.Insert st width height depth meth).1.height = width)) := by
  rcases hfb : MaxRectsBinPack.findBottomLeft width height depth st.binAllowFlip
      st.usedRectangles (MaxRectsBinPack.sortFreeSpace st.freeRectangles) false with _ | r0
  · exfalso
    apply hz
    have hfind : MaxRectsBinPack.FindPositionForNewNodeBottomLeft
        { st with freeRectangles := MaxRectsBinPack.sortFreeSpace st.freeRectangles }
        width height depth = zeroRect3d := by
      simp only [MaxRectsBinPack.FindPositionForNewNodeBottomLeft]
      rw [hfb]
    simp only [MaxRectsBinPack.Insert, hfind]
    rfl
  · have hfind : MaxRectsBinPack.FindPositionForNewNodeBottomLeft
        { st with freeRectangles := MaxRectsBinPack.sortFreeSpace st.freeRectangles }
        width height depth = r0 := by
      simp only [MaxRectsBinPack.FindPositionForNewNodeBottomLeft]
      rw [hfb]
    have hres : (MaxRectsBinPack.Insert st width height depth meth).1 = r0 := by
      by_cases h0 : r0.height = 0 <;> simp [MaxRectsBinPack.Insert, hfind, h0]
    rw [hres]
    obtain ⟨_, hd, hdims⟩ := findBottomLeft_some width height depth st.binAllowFlip
      st.usedRectangles _ false r0 hfb
    exact ⟨hd, hdims⟩

/-- Effect of one max-rects insert on the placed-box set. -/
theorem mrInsert_extends (st : MaxRectsBinPack) (width height depth : Int)
    (meth : MaxRectsChoiceHeuristic) (hw : 0 ≤ width) (hh : 0 ≤ height) (hd : 0 ≤ depth) :
    ∃ extra, (MaxRectsBinPack.Insert st width height depth meth).2.usedRectangles
        = st.usedRectangles ++ extra ∧
      (∀ b ∈ extra, 0 ≤ b.width ∧ 0 ≤ b.height ∧ 0 ≤ b.depth) := by
  by_cases hz : (MaxRectsBinPack.Insert st width height depth meth).1.height = 0
  · refine ⟨[], ?_, ?_⟩
    · rw [mrInsert_used_eq, if_pos hz, List.append_nil]
    · intro b hb; simp at hb
  · refine ⟨[(MaxRectsBinPack.Insert st width height depth meth).1], ?_, ?_⟩
    · rw [mrInsert_used_eq, if_neg hz]
    · intro b hb
      rw [List.mem_singleton.mp hb]
      obtain ⟨hdep, hdims⟩ := mrInsert_node_dims st width height depth meth hz
      rcases hdims with ⟨e1, e2⟩ | ⟨e1, e2⟩ <;> rw [hdep, e1, e2] <;>
        exact ⟨by omega, by omega, hd⟩

/-- Effect of a max-rects insert sequence from any start state. -/
theorem applyMOps_extends (st : MaxRectsBinPack) (ops : List RectSize3d)
    (hops : ∀ r ∈ ops, 0 ≤ r.width ∧ 0 ≤ r.height ∧ 0 ≤ r.depth) :
    ∃ extra, (applyMOps st ops).usedRectangles = st.usedRectangles ++ extra ∧
      (∀ b ∈ extra, 0 ≤ b.width ∧ 0 ≤ b.height ∧ 0 ≤ b.depth) ∧
      (applyMOps st ops).binWidth = st.binWidth ∧
      (applyMOps st ops).binHeight = st.binHeight := by
  induction ops generalizing st with
  | nil =>
    refine ⟨[], by simp [applyMOps], ?_, rfl, rfl⟩
    intro b hb; simp at hb
  | cons op ops ih =>
    obtain ⟨hw, hh, hd⟩ := hops op (by simp)
    obtain ⟨e1, hu1, hn1⟩ := mrInsert_extends st op.width op.height op.depth
      .RectBottomLeftRule hw hh hd
    obtain ⟨hbw1, hbh1, _, _⟩ := mrInsert_bin_eq st op.width op.height op.depth
      .RectBottomLeftRule
    obtain ⟨e2, hu2, hn2, hbw2, hbh2⟩ := ih
      (MaxRectsBinPack.Insert st op.width op.height op.depth .RectBottomLeftRule).2
      (fun q hq => hops q (by simp [hq]))
    refine ⟨e1 ++ e2, ?_, ?_, ?_, ?_⟩
    · show (applyMOps _ ops).usedRectangles = _
      rw [hu2, hu1, List.append_assoc]
    · intro b hb
      rcases List.mem_append.mp hb with hb | hb
      · exact hn1 b hb
      · exact hn2 b hb
    · show (applyMOps _ ops).binWidth = _
      rw [hbw2, hbw1]
    · show (applyMOps _ ops).binHeight = _
      rw [hbh2, hbh1]

/-- Sum of volumes of boxes with nonnegative dimensions is nonnegative. -/
theorem sum_volume_nonneg (l : List Rect3d)
    (h : ∀ b ∈ l, 0 ≤ b.width ∧ 0 ≤ b.height ∧ 0 ≤ b.depth) :
    0 ≤ (l.map Rect3d.volume).sum := by
  apply List.sum_nonneg
  intro x hx
  obtain ⟨b, hb, hxb⟩ := List.mem_map.mp hx
  obtain ⟨h1, h2, h3⟩ := h b hb
  rw [← hxb, Rect3d.volume]
  positivity

/-- Sum of footprint areas of boxes with nonnegative dimensions is
nonnegative. -/
theorem sum_footprint_nonneg (l : List Rect3d)
    (h : ∀ b ∈ l, 0 ≤ b.width ∧ 0 ≤ b.height ∧ 0 ≤ b.depth) :
    0 ≤ (l.map Rect3d.footprintArea).sum := by
  apply List.sum_nonneg
  intro x hx
  obtain ⟨b, hb, hxb⟩ := List.mem_map.mp hx
  obtain ⟨h1, h2, _⟩ := h b hb
  rw [← hxb, Rect3d.footprintArea]
  positivity

/-- Appending one operation to a guillotine sequence composes. -/
theorem applyGOps_append_one (st : GuillotineBinPack3d) (ops : List GOp) (op : GOp) :
    applyGOps st (ops ++ [op]) = GOp.apply (applyGOps st ops) op := by
  simp only [applyGOps, List.foldl_append, List.foldl_cons, List.foldl_nil]

/-- Appending one insert to a max-rects sequence composes. -/
theorem applyMOps_append_one (st : MaxRectsBinPack) (ops : List RectSize3d) (op : RectSize3d) :
    applyMOps st (ops ++ [op])
      = (MaxRectsBinPack.Insert (applyMOps st ops) op.width op.height op.depth
          .RectBottomLeftRule).2 := by
  simp only [applyMOps, List.foldl_append, List.foldl_cons, List.foldl_nil]

/-- **C8 amended**: for both packers `occupancy()` is nonnegative after
any operation sequence with nonnegative request sizes, and it is
monotonically non-decreasing under one more operation.  (The upper bound
1 of the claim is false: the max-rects variant double-counts the
footprints of stacked boxes — see the counterexample — so only the lower
bound and monotonicity survive.) -/
theorem occupancy_nonneg_and_monotone
    (W H D : Int) (hW : 0 < W) (hH : 0 < H) (hD : 0 < D)
    (ops : List GOp) (hops : ∀ op ∈ ops, op.sizesNonneg)
    (op : GOp) (hop : op.sizesNonneg)
    (W2 H2 D2 : Int) (hW2 : 0 < W2) (hH2 : 0 < H2) (flip : Bool)
    (mops : List RectSize3d) (hmops : ∀ r ∈ mops, 0 ≤ r.width ∧ 0 ≤ r.height ∧ 0 ≤ r.depth)
    (mop : RectSize3d) (hmop : 0 ≤ mop.width ∧ 0 ≤ mop.height ∧ 0 ≤ mop.depth) :
    (0 ≤ GuillotineBinPack3d.Occupancy (applyGOps (GuillotineBinPack3d.Init W H D) ops) ∧
     GuillotineBinPack3d.Occupancy (applyGOps (GuillotineBinPack3d.Init W H D) ops) ≤
       GuillotineBinPack3d.Occupancy
         (applyGOps (GuillotineBinPack3d.Init W H D) (ops ++ [op]))) ∧
    (0 ≤ MaxRectsBinPack.Occupancy (applyMOps (MaxRectsBinPack.Init W2 H2 D2 flip) mops) ∧
     MaxRectsBinPack.Occupancy (applyMOps (MaxRectsBinPack.Init W2 H2 D2 flip) mops) ≤
       MaxRectsBinPack.Occupancy
         (applyMOps (MaxRectsBinPack.Init W2 H2 D2 flip) (mops ++ [mop]))) := by
  constructor
  · obtain ⟨extra, hused, hnn, hbw, hbh, hbd⟩ :=
      applyGOps_extends (GuillotineBinPack3d.Init W H D) ops hops
    obtain ⟨extra2, hused2, hnn2, hbw2, hbh2, hbd2⟩ :=
      applyGOps_extends (GuillotineBinPack3d.Init W H D) (ops ++ [op])
        (by intro q hq; rcases List.mem_append.mp hq with hq | hq
            · exact hops q hq
            · rw [List.mem_singleton.mp hq]; exact hop)
    have hdenom : (0 : ℚ) < (((GuillotineBinPack3d.Init W H D).binWidth *
        (GuillotineBinPack3d.Init W H D).binHeight *
        (GuillotineBinPack3d.Init W H D).binDepth : Int) : ℚ) := by
      have : (0 : Int) < W * H * D := by positivity
      exact_mod_cast this
    have hsum1 : 0 ≤ ((applyGOps (GuillotineBinPack3d.Init W H D)
        ops).usedRectangles.map Rect3d.volume).sum := by
      rw [hused]
      apply sum_volume_nonneg
      intro b hb
      rcases List.mem_append.mp hb with hb | hb
      · simp [GuillotineBinPack3d.Init] at hb
      · exact hnn b hb
    constructor
    · rw [GuillotineBinPack3d.Occupancy]
      apply div_nonneg
      · exact_mod_cast hsum1
      · rw [hbw, hbh, hbd]
        exact le_of_lt hdenom
    · rw [GuillotineBinPack3d.Occupancy, GuillotineBinPack3d.Occupancy,
        hbw, hbh, hbd, hbw2, hbh2, hbd2]
      apply div_le_div_of_nonneg_right ?_ (le_of_lt hdenom)
      have hmono : ((applyGOps (GuillotineBinPack3d.Init W H D)
          ops).usedRectangles.map Rect3d.volume).sum ≤
          ((applyGOps (GuillotineBinPack3d.Init W H D)
            (ops ++ [op])).usedRectangles.map Rect3d.volume).sum := by
        rw [applyGOps_append_one]
        obtain ⟨e3, hu3, hn3, _, _, _⟩ :=
          gApply_extends (applyGOps (GuillotineBinPack3d.Init W H D) ops) op hop
        rw [hu3, List.map_append, List.sum_append]
        have := sum_volume_nonneg e3 hn3
        omega
      exact_mod_cast hmono
  · obtain ⟨extra, hused, hnn, hbw, hbh⟩ :=
      applyMOps_extends (MaxRectsBinPack.Init W2 H2 D2 flip) mops hmops
    have hdenom : (0 : ℚ) < (((MaxRectsBinPack.Init W2 H2 D2 flip).binWidth *
        (MaxRectsBinPack.Init W2 H2 D2 flip).binHeight : Int) : ℚ) := by
      have : (0 : Int) < W2 * H2 := by positivity
      exact_mod_cast this
    have hsum1 : 0 ≤ ((applyMOps (MaxRectsBinPack.Init W2 H2 D2 flip)
        mops).usedRectangles.map Rect3d.footprintArea).sum := by
      rw [hused]
      apply sum_footprint_nonneg
      intro b hb
      rcases List.mem_append.mp hb with hb | hb
      · simp [MaxRectsBinPack.Init] at hb
      · exact hnn b hb
    constructor
    · rw [MaxRectsBinPack.Occupancy]
      apply div_nonneg
      · exact_mod_cast hsum1
      · rw [hbw, hbh]
        exact le_of_lt hdenom
    · obtain ⟨extra2, hused2, hnn2, hbw2, hbh2⟩ :=
        applyMOps_extends (MaxRectsBinPack.Init W2 H2 D2 flip) (mops ++ [mop])
          (by intro q hq; rcases List.mem_append.mp hq with hq | hq
              · exact hmops q hq
              · rw [List.mem_singleton.mp hq]; exact hmop)
      rw [MaxRectsBinPack.Occupancy, MaxRectsBinPack.Occupancy, hbw, hbh, hbw2, hbh2]
      apply div_le_div_of_nonneg_right ?_ (le_of_lt hdenom)
      have hmono : ((applyMOps (MaxRectsBinPack.Init W2 H2 D2 flip)
          mops).usedRectangles.map Rect3d.footprintArea).sum ≤
          ((applyMOps (MaxRectsBinPack.Init W2 H2 D2 flip)
            (mops ++ [mop])).usedRectangles.map Rect3d.footprintArea).sum := by
        obtain ⟨hw, hh, hd⟩ := hmop
        obtain ⟨e3, hu3, hn3⟩ := mrInsert_extends
          (applyMOps (MaxRectsBinPack.Init W2 H2 D2 flip) mops)
          mop.width mop.height mop.depth .RectBottomLeftRule hw hh hd
        rw [applyMOps_append_one, hu3, List.map_append, List.sum_append]
        have := sum_footprint_nonneg e3 hn3
        omega
      exact_mod_cast hmono

/-- Witness for `occupancy_nonneg_and_monotone` at concrete inputs. -/
theorem occupancy_nonneg_and_monotone_witness :
    ((0 : Int) < 10 ∧ (0 : Int) < 10 ∧ (0 : Int) < 10 ∧
     (∀ op ∈ ([GOp.one 4 4 6 false .RectBestAreaFit .SplitShorterLeftoverAxis] : List GOp),
       op.sizesNonneg) ∧
     (GOp.one 5 3 10 false .RectWorstAreaFit .SplitShorterLeftoverAxis).sizesNonneg ∧
     (∀ r ∈ ([⟨10, 10, 5⟩] : List RectSize3d), 0 ≤ r.width ∧ 0 ≤ r.height ∧ 0 ≤ r.depth) ∧
     (0 ≤ (⟨10, 10, 5⟩ : RectSize3d).width ∧ 0 ≤ (⟨10, 10, 5⟩ : RectSize3d).height ∧
       0 ≤ (⟨10, 10, 5⟩ : RectSize3d).depth)) ∧
    ((0 ≤ GuillotineBinPack3d.Occupancy (applyGOps (GuillotineBinPack3d.Init 10 10 10)
        [GOp.one 4 4 6 false .RectBestAreaFit .SplitShorterLeftoverAxis]) ∧
      GuillotineBinPack3d.Occupancy (applyGOps (GuillotineBinPack3d.Init 10 10 10)
        [GOp.one 4 4 6 false .RectBestAreaFit .SplitShorterLeftoverAxis]) ≤
        GuillotineBinPack3d.Occupancy (applyGOps (GuillotineBinPack3d.Init 10 10 10)
          ([GOp.one 4 4 6 false .RectBestAreaFit .SplitShorterLeftoverAxis] ++
            [GOp.one 5 3 10 false .RectWorstAreaFit .SplitShorterLeftoverAxis]))) ∧
     (0 ≤ MaxRectsBinPack.Occupancy (applyMOps (MaxRectsBinPack.Init 10 10 10 true)
        [⟨10, 10, 5⟩]) ∧
      MaxRectsBinPack.Occupancy (applyMOps (MaxRectsBinPack.Init 10 10 10 true)
        [⟨10, 10, 5⟩]) ≤
        MaxRectsBinPack.Occupancy (applyMOps (MaxRectsBinPack.Init 10 10 10 true)
          (([⟨10, 10, 5⟩] : List RectSize3d) ++ [⟨10, 10, 5⟩])))) :=
  ⟨⟨by decide, by decide, by decide, by decide, by decide, by decide, by decide⟩,
   occupancy_nonneg_and_monotone 10 10 10 (by decide) (by decide) (by decide)
     [GOp.one 4 4 6 false .RectBestAreaFit .SplitShorterLeftoverAxis] (by decide)
     (GOp.one 5 3 10 false .RectWorstAreaFit .SplitShorterLeftoverAxis) (by decide)
     10 10 10 (by decide) (by decide) true
     [⟨10, 10, 5⟩] (by decide) ⟨10, 10, 5⟩ (by decide)⟩

/-! ## C2: pairwise disjointness of the placed-box set -/

theorem overlap_comm (a b : Rect3d) : a.overlap b ↔ b.overlap a := by
  unfold Rect3d.overlap intervalOverlap
  omega

/-- A box spatially inside `F` (componentwise interval inclusion)
overlaps nothing `F` is disjoint from. -/
theorem not_overlap_of_inside (p F b : Rect3d)
    (h1 : F.x ≤ p.x) (h2 : p.x + p.width ≤ F.x + F.width)
    (h3 : F.y ≤ p.y) (h4 : p.y + p.height ≤ F.y + F.height)
    (h5 : F.z ≤ p.z) (h6 : p.z + p.depth ≤ F.z + F.depth)
    (h : ¬ F.overlap b) : ¬ p.overlap b := by
  intro hov
  apply h
  unfold Rect3d.overlap intervalOverlap at hov ⊢
  omega

/-- The column argument: a node anchored at `F`'s origin whose x–y
footprint is inside `F`'s cannot overlap a box `b` that is disjoint from
`F`, provided `F` reaches up to `D` and both `F` and `b` start below `D`
— even when the node's depth overflows `F`'s. -/
theorem not_overlap_of_column (D : Int) (F nd b : Rect3d)
    (hax : nd.x = F.x) (hay : nd.y = F.y) (haz : nd.z = F.z)
    (hw : nd.width ≤ F.width) (hh : nd.height ≤ F.height)
    (hFtop : F.z + F.depth = D) (hFz : F.z < D) (hbz : b.z < D)
    (hdisj : ¬ F.overlap b) : ¬ nd.overlap b := by
  intro hov
  apply hdisj
  unfold Rect3d.overlap intervalOverlap at hov ⊢
  omega

/-- The inductive invariant of the guillotine packer: free volumes are
nondegenerate, reach the container top `D`, are pairwise disjoint and
disjoint from every placed box; placed boxes are pairwise disjoint and
anchored strictly below `D`. -/
def GInv (D : Int) (used free : List Rect3d) : Prop :=
  (∀ f ∈ free, 1 ≤ f.width ∧ 1 ≤ f.height ∧ 1 ≤ f.depth) ∧
  (∀ f ∈ free, f.z + f.depth = D) ∧
  free.Pairwise (fun a b => ¬ a.overlap b) ∧
  (∀ f ∈ free, ∀ u ∈ used, ¬ f.overlap u) ∧
  used.Pairwise (fun a b => ¬ a.overlap b) ∧
  (∀ u ∈ used, u.z < D)

/-- `GInv` only sees the free list through membership and a symmetric
pairwise relation, so it transports along permutations of the free
list (the pre-search sort). -/
theorem GInv_perm (D : Int) (used f1 f2 : List Rect3d) (hp : f1.Perm f2)
    (h : GInv D used f1) : GInv D used f2 := by
  obtain ⟨h1, h2, h3, h4, h5, h6⟩ := h
  refine ⟨fun f hf => h1 f (hp.mem_iff.mpr hf), fun f hf => h2 f (hp.mem_iff.mpr hf),
    h3.perm hp (fun hxy hyx => hxy ((overlap_comm _ _).mp hyx)),
    fun f hf => h4 f (hp.mem_iff.mpr hf), h5, h6⟩

/-- Dropping the element at `i` keeps the pairwise relation and relates
every survivor to the dropped element (for a symmetric relation). -/
theorem pairwise_eraseIdx_rel (R : Rect3d → Rect3d → Prop)
    (hsymm : ∀ a b, R a b → R b a) (l : List Rect3d) (i : Nat) (hi : i < l.length)
    (hp : l.Pairwise R) :
    (l.eraseIdx i).Pairwise R ∧ ∀ g ∈ l.eraseIdx i, R g (l.getD i default) := by
  refine ⟨hp.sublist (l.eraseIdx_sublist i), ?_⟩
  have hsplit : l = l.take i ++ l[i] :: l.drop (i + 1) := by
    rw [← List.drop_eq_getElem_cons hi, List.take_append_drop]
  have hget : l.getD i default = l[i] := by
    rw [List.getD_eq_getElem?_getD, List.getElem?_eq_getElem hi]
    rfl
  rw [List.eraseIdx_eq_take_drop_succ, hget]
  rw [hsplit] at hp
  rw [List.pairwise_append] at hp
  obtain ⟨hp1, hp2, hp3⟩ := hp
  intro g hg
  rcases List.mem_append.mp hg with hg | hg
  · exact hp3 g hg l[i] (List.mem_cons_self _ _)
  · exact hsymm _ _ (List.rel_of_pairwise_cons hp2 hg)

/-- The three possible shapes of a member of
`SplitFreeRectAlongAxis F nd sH`, with the nondegeneracy condition
under which it was kept. -/
theorem split_mem_cases (F nd : Rect3d) (sH : Bool) (p : Rect3d)
    (hp : p ∈ GuillotineBinPack3d.SplitFreeRectAlongAxis F nd sH) :
    (p = ⟨F.x, F.y, F.z + nd.depth, nd.width, nd.height, F.depth - nd.depth⟩ ∧
      0 < nd.width ∧ 0 < nd.height ∧ 0 < F.depth - nd.depth) ∨
    (p = ⟨F.x, F.y + nd.height, F.z, if sH then F.width else nd.width,
        F.height - nd.height, F.depth⟩ ∧
      0 < (if sH then F.width else nd.width) ∧ 0 < F.height - nd.height ∧ 0 < F.depth) ∨
    (p = ⟨F.x + nd.width, F.y, F.z, F.width - nd.width,
        if sH then nd.height else F.height, F.depth⟩ ∧
      0 < F.width - nd.width ∧ 0 < (if sH then nd.height else F.height) ∧ 0 < F.depth) := by
  simp only [GuillotineBinPack3d.SplitFreeRectAlongAxis, List.mem_append,
    List.mem_ite_nil_right, List.mem_singleton] at hp
  tauto

/-- Everything `SplitFreeRectAlongAxis` produces, for a node anchored at
the free volume's origin whose width/height fit: each product is
nondegenerate, keeps the free volume's top, lies spatially inside the
free volume, and misses the placed node; and the products are pairwise
disjoint. -/
theorem split_products_facts (F nd : Rect3d) (sH : Bool)
    (hax : nd.x = F.x) (hay : nd.y = F.y) (haz : nd.z = F.z)
    (hw : nd.width ≤ F.width) (hh : nd.height ≤ F.height)
    (h0w : 0 ≤ nd.width) (h0h : 0 ≤ nd.height) (h0d : 0 ≤ nd.depth) :
    (∀ p ∈ GuillotineBinPack3d.SplitFreeRectAlongAxis F nd sH,
      (1 ≤ p.width ∧ 1 ≤ p.height ∧ 1 ≤ p.depth) ∧
      p.z + p.depth = F.z + F.depth ∧
      (F.x ≤ p.x ∧ p.x + p.width ≤ F.x + F.width ∧
       F.y ≤ p.y ∧ p.y + p.height ≤ F.y + F.height ∧
       F.z ≤ p.z ∧ p.z + p.depth ≤ F.z + F.depth) ∧
      ¬ p.overlap nd) ∧
    (GuillotineBinPack3d.SplitFreeRectAlongAxis F nd sH).Pairwise
      (fun a b => ¬ a.overlap b) := by
  constructor
  · intro p hp
    rcases split_mem_cases F nd sH p hp with ⟨hp1, hc⟩ | ⟨hp1, hc⟩ | ⟨hp1, hc⟩ <;>
      subst hp1 <;>
      simp only [Rect3d.overlap, intervalOverlap] <;>
      cases sH <;>
      simp at hc ⊢ <;>
      omega
  · simp only [GuillotineBinPack3d.SplitFreeRectAlongAxis]
    refine List.pairwise_append.mpr ⟨List.pairwise_append.mpr ⟨?_, ?_, ?_⟩, ?_, ?_⟩
    · split_ifs <;> simp
    · split_ifs <;> simp
    · intro a ha b hb
      rw [List.mem_ite_nil_right, List.mem_singleton] at ha hb
      obtain ⟨hca, rfl⟩ := ha
      obtain ⟨hcb, rfl⟩ := hb
      intro hov
      simp only [Rect3d.overlap, intervalOverlap] at hov
      cases sH <;> simp at hov hca hcb <;> omega
    · split_ifs <;> simp
    · intro a ha b hb
      rw [List.mem_ite_nil_right, List.mem_singleton] at hb
      obtain ⟨hcb, rfl⟩ := hb
      rcases List.mem_append.mp ha with ha | ha <;>
        rw [List.mem_ite_nil_right, List.mem_singleton] at ha <;>
        obtain ⟨hca, rfl⟩ := ha <;>
        intro hov <;>
        simp only [Rect3d.overlap, intervalOverlap] at hov <;>
        cases sH <;> simp at hov hca hcb <;> omega

/-- The core placement step: placing a node anchored at the origin of
the free volume at index `idx`, whose width/height fit it (its depth may
overflow — the batch bug — without harming disjointness, thanks to the
top invariant), then replacing that volume by its guillotine split,
preserves the invariant. -/
theorem place_step (D : Int) (used free : List Rect3d) (idx : Nat)
    (nd : Rect3d) (s : GuillotineSplitHeuristic)
    (hinv : GInv D used free) (hidx : idx < free.length)
    (hax : nd.x = (free.getD idx default).x) (hay : nd.y = (free.getD idx default).y)
    (haz : nd.z = (free.getD idx default).z)
    (hw : nd.width ≤ (free.getD idx default).width)
    (hh : nd.height ≤ (free.getD idx default).height)
    (h0w : 0 ≤ nd.width) (h0h : 0 ≤ nd.height) (h0d : 0 ≤ nd.depth) :
    GInv D (used ++ [nd])
      ((free ++ GuillotineBinPack3d.SplitFreeRectByHeuristic (free.getD idx default) nd s).eraseIdx
        idx) := by
  obtain ⟨hnd, htop, hfd, hfu, hud, huz⟩ := hinv
  have hFmem : free.getD idx default ∈ free := getD_mem_of_lt _ _ _ hidx
  obtain ⟨hFw, hFh, hFd⟩ := hnd _ hFmem
  have hFtop : (free.getD idx default).z + (free.getD idx default).depth = D := htop _ hFmem
  have hFz : (free.getD idx default).z < D := by omega
  obtain ⟨hprod, hprodpw⟩ := split_products_facts (free.getD idx default) nd
    (GuillotineBinPack3d.splitAxisOf (free.getD idx default) nd s) hax hay haz hw hh h0w h0h h0d
  obtain ⟨herase, hrelF⟩ := pairwise_eraseIdx_rel (fun a b => ¬ a.overlap b)
    (fun a b hab hba => hab ((overlap_comm b a).mp hba)) free idx hidx hfd
  rw [List.eraseIdx_append_of_lt_length hidx, GuillotineBinPack3d.SplitFreeRectByHeuristic]
  have hE : ∀ e ∈ free.eraseIdx idx, e ∈ free := fun e he => (free.eraseIdx_sublist idx).mem he
  -- disjointness of every survivor from the placed node, via the column argument
  have hEnd : ∀ e ∈ free.eraseIdx idx, ¬ e.overlap nd := by
    intro e he hov
    have henondeg := hnd _ (hE e he)
    have hetop := htop _ (hE e he)
    have hez : e.z < D := by omega
    exact not_overlap_of_column D (free.getD idx default) nd e hax hay haz hw hh hFtop hFz
      hez ((overlap_comm _ _).not.mpr (hrelF e he)) ((overlap_comm _ _).mp hov)
  have hund : ∀ u ∈ used, ¬ nd.overlap u := by
    intro u hu
    exact not_overlap_of_column D (free.getD idx default) nd u hax hay haz hw hh hFtop hFz
      (huz u hu) (hfu _ hFmem u hu)
  refine ⟨?_, ?_, ?_, ?_, ?_, ?_⟩
  · intro f hf
    rcases List.mem_append.mp hf with hf | hf
    · exact hnd f (hE f hf)
    · exact (hprod f hf).1
  · intro f hf
    rcases List.mem_append.mp hf with hf | hf
    · exact htop f (hE f hf)
    · rw [(hprod f hf).2.1, hFtop]
  · refine List.pairwise_append.mpr ⟨herase, hprodpw, ?_⟩
    intro e he p hp
    obtain ⟨_, _, hin, _⟩ := hprod p hp
    intro hov
    exact not_overlap_of_inside p (free.getD idx default) e hin.1 hin.2.1 hin.2.2.1
      hin.2.2.2.1 hin.2.2.2.2.1 hin.2.2.2.2.2
      ((overlap_comm _ _).not.mpr (hrelF e he)) ((overlap_comm _ _).mp hov)
  · intro f hf u hu
    rcases List.mem_append.mp hf with hf | hf
    · rcases List.mem_append.mp hu with hu | hu
      · exact hfu f (hE f hf) u hu
      · rw [List.mem_singleton.mp hu]
        exact hEnd f hf
    · obtain ⟨_, _, hin, hpnd⟩ := hprod f hf
      rcases List.mem_append.mp hu with hu | hu
      · exact not_overlap_of_inside f (free.getD idx default) u hin.1 hin.2.1 hin.2.2.1
          hin.2.2.2.1 hin.2.2.2.2.1 hin.2.2.2.2.2 (hfu _ hFmem u hu)
      · rw [List.mem_singleton.mp hu]
        exact hpnd
  · refine List.pairwise_append.mpr ⟨hud, by simp, ?_⟩
    intro u hu b hb
    rw [List.mem_singleton.mp hb]
    exact fun hov => hund u hu ((overlap_comm _ _).mp hov)
  · intro u hu
    rcases List.mem_append.mp hu with hu | hu
    · exact huz u hu
    · rw [List.mem_singleton.mp hu, haz]
      exact hFz

/-- What one successful `tryMerge` guarantees: for nondegenerate inputs
whose tops agree with `D`, the merged rectangle is nondegenerate, keeps
the top, and covers exactly the union of the two inputs (so anything it
overlaps, one of the inputs overlaps).  The literal `a.x + a.depth =
a.x` condition of the source's third branch is unsatisfiable for a
nondegenerate `a`. -/
theorem tryMerge_facts (D : Int) (a b m : Rect3d)
    (hm : GuillotineBinPack3d.tryMerge a b = some m)
    (ha : 1 ≤ a.width ∧ 1 ≤ a.height ∧ 1 ≤ a.depth)
    (hb : 1 ≤ b.width ∧ 1 ≤ b.height ∧ 1 ≤ b.depth)
    (hatop : a.z + a.depth = D) (hbtop : b.z + b.depth = D) :
    (1 ≤ m.width ∧ 1 ≤ m.height ∧ 1 ≤ m.depth) ∧
    m.z + m.depth = D ∧
    (∀ X : Rect3d, m.overlap X → a.overlap X ∨ b.overlap X) := by
  unfold GuillotineBinPack3d.tryMerge at hm
  split_ifs at hm with h1 h2 h3 h4 h5 h6 h7 h8 h9 <;>
    obtain rfl := Option.some.inj hm
  · refine ⟨by simp; omega, by simp; omega, ?_⟩
    intro X hov
    simp only [Rect3d.overlap, intervalOverlap] at hov ⊢
    by_cases hy : max a.y X.y < min (a.y + a.height) (X.y + X.height)
    · left; omega
    · right; omega
  · refine ⟨by simp; omega, by simp; omega, ?_⟩
    intro X hov
    simp only [Rect3d.overlap, intervalOverlap] at hov ⊢
    by_cases hy : max a.y X.y < min (a.y + a.height) (X.y + X.height)
    · left; omega
    · right; omega
  · refine ⟨by simp; omega, by simp; omega, ?_⟩
    intro X hov
    simp only [Rect3d.overlap, intervalOverlap] at hov ⊢
    by_cases hx : max a.x X.x < min (a.x + a.width) (X.x + X.width)
    · left; omega
    · right; omega
  · refine ⟨by simp; omega, by simp; omega, ?_⟩
    intro X hov
    simp only [Rect3d.overlap, intervalOverlap] at hov ⊢
    by_cases hx : max a.x X.x < min (a.x + a.width) (X.x + X.width)
    · left; omega
    · right; omega
  · refine ⟨by simp; omega, by simp; omega, ?_⟩
    intro X hov
    simp only [Rect3d.overlap, intervalOverlap] at hov ⊢
    by_cases hz : max a.z X.z < min (a.z + a.depth) (X.z + X.depth)
    · left; omega
    · right; omega
  · exact absurd h9 (by omega)

/-- `mergeInner` preserves the shape facts: the accumulated rectangle is
nondegenerate with top `D`, the survivors are a sublist, the accumulated
rectangle stays disjoint from every survivor, and it covers only what
the inputs covered. -/
theorem mergeInner_facts (D : Int) (t : Rect3d) (l : List Rect3d)
    (ht : (1 ≤ t.width ∧ 1 ≤ t.height ∧ 1 ≤ t.depth) ∧ t.z + t.depth = D)
    (hl : ∀ r ∈ l, (1 ≤ r.width ∧ 1 ≤ r.height ∧ 1 ≤ r.depth) ∧ r.z + r.depth = D)
    (hpt : ∀ r ∈ l, ¬ t.overlap r)
    (hpl : l.Pairwise fun a b => ¬ a.overlap b) :
    ((1 ≤ (GuillotineBinPack3d.mergeInner t l).1.width ∧
      1 ≤ (GuillotineBinPack3d.mergeInner t l).1.height ∧
      1 ≤ (GuillotineBinPack3d.mergeInner t l).1.depth) ∧
      (GuillotineBinPack3d.mergeInner t l).1.z +
        (GuillotineBinPack3d.mergeInner t l).1.depth = D) ∧
    ((GuillotineBinPack3d.mergeInner t l).2).Sublist l ∧
    (∀ r ∈ (GuillotineBinPack3d.mergeInner t l).2,
      ¬ (GuillotineBinPack3d.mergeInner t l).1.overlap r) ∧
    (∀ X : Rect3d, (GuillotineBinPack3d.mergeInner t l).1.overlap X →
      t.overlap X ∨ ∃ r ∈ l, r.overlap X) := by
  induction l generalizing t with
  | nil =>
    simp only [GuillotineBinPack3d.mergeInner]
    refine ⟨ht, List.Sublist.refl _, ?_, ?_⟩
    · intro r hr; simp at hr
    · intro X h; exact Or.inl h
  | cons r rest ih =>
    simp only [GuillotineBinPack3d.mergeInner]
    cases hmr : GuillotineBinPack3d.tryMerge t r with
    | some m =>
      obtain ⟨hmfacts1, hmfacts2, hmcover⟩ := tryMerge_facts D t r m hmr ht.1
        (hl r (List.mem_cons_self _ _)).1 ht.2 (hl r (List.mem_cons_self _ _)).2
      have hptm : ∀ q ∈ rest, ¬ m.overlap q := by
        intro q hq hov
        rcases hmcover q hov with h | h
        · exact hpt q (List.mem_cons_of_mem _ hq) h
        · exact List.rel_of_pairwise_cons hpl hq h
      obtain ⟨ih1, ih2, ih3, ih4⟩ := ih m ⟨hmfacts1, hmfacts2⟩
        (fun q hq => hl q (List.mem_cons_of_mem _ hq)) hptm (List.Pairwise.sublist
          (List.sublist_cons_self r rest) hpl)
      refine ⟨ih1, ih2.trans (List.sublist_cons_self r rest), ih3, ?_⟩
      intro X hX
      rcases ih4 X hX with h | ⟨q, hq, h⟩
      · rcases hmcover X h with h | h
        · exact Or.inl h
        · exact Or.inr ⟨r, List.mem_cons_self _ _, h⟩
      · exact Or.inr ⟨q, List.mem_cons_of_mem _ hq, h⟩
    | none =>
      obtain ⟨ih1, ih2, ih3, ih4⟩ := ih t ht (fun q hq => hl q (List.mem_cons_of_mem _ hq))
        (fun q hq => hpt q (List.mem_cons_of_mem _ hq))
        (List.Pairwise.sublist (List.sublist_cons_self r rest) hpl)
      refine ⟨ih1, ?_, ?_, ?_⟩
      · exact List.Sublist.cons₂ r ih2
      · intro q hq
        rcases List.mem_cons.mp hq with hq | hq
        · subst hq
          intro hov
          rcases ih4 q hov with h | ⟨w, hw, h⟩
          · exact hpt q (List.mem_cons_self _ _) h
          · exact List.rel_of_pairwise_cons hpl hw ((overlap_comm _ _).mp h)
        · exact ih3 q hq
      · intro X hX
        rcases ih4 X hX with h | ⟨q, hq, h⟩
        · exact Or.inl h
        · exact Or.inr ⟨q, List.mem_cons_of_mem _ hq, h⟩

/-- `mergeOuter` preserves nondegeneracy, tops, pairwise disjointness,
and coverage. -/
theorem mergeOuter_facts (D : Int) : ∀ (fuel : Nat) (l : List Rect3d),
    (∀ r ∈ l, (1 ≤ r.width ∧ 1 ≤ r.height ∧ 1 ≤ r.depth) ∧ r.z + r.depth = D) →
    l.Pairwise (fun a b => ¬ a.overlap b) →
    (∀ o ∈ GuillotineBinPack3d.mergeOuter fuel l,
      (1 ≤ o.width ∧ 1 ≤ o.height ∧ 1 ≤ o.depth) ∧ o.z + o.depth = D) ∧
    (GuillotineBinPack3d.mergeOuter fuel l).Pairwise (fun a b => ¬ a.overlap b) ∧
    (∀ o ∈ GuillotineBinPack3d.mergeOuter fuel l, ∀ X : Rect3d,
      o.overlap X → ∃ r ∈ l, r.overlap X) := by
  intro fuel
  induction fuel with
  | zero =>
    intro l hl hpl
    refine ⟨hl, hpl, ?_⟩
    intro o ho X hX
    exact ⟨o, ho, hX⟩
  | succ fuel ih =>
    intro l hl hpl
    match l with
    | [] =>
      refine ⟨?_, ?_, ?_⟩ <;> simp [GuillotineBinPack3d.mergeOuter]
    | t :: rest =>
      simp only [GuillotineBinPack3d.mergeOuter]
      obtain ⟨hfacts, hsub, hdisj, hcover⟩ := mergeInner_facts D t rest
        (hl t (List.mem_cons_self _ _)) (fun q hq => hl q (List.mem_cons_of_mem _ hq))
        (fun q hq => List.rel_of_pairwise_cons hpl hq)
        (List.Pairwise.sublist (List.sublist_cons_self t rest) hpl)
      obtain ⟨oh1, oh2, oh3⟩ := ih (GuillotineBinPack3d.mergeInner t rest).2
        (fun q hq => hl q (List.mem_cons_of_mem _ (hsub.mem hq)))
        (List.Pairwise.sublist (hsub.trans (List.sublist_cons_self t rest)) hpl)
      refine ⟨?_, ?_, ?_⟩
      · intro o ho
        rcases List.mem_cons.mp ho with ho | ho
        · subst ho; exact hfacts
        · exact oh1 o ho
      · rw [List.pairwise_cons]
        refine ⟨?_, oh2⟩
        intro o ho hov
        obtain ⟨q, hq, hqov⟩ := oh3 o ho _ ((overlap_comm _ _).mp hov)
        exact hdisj q hq ((overlap_comm _ _).mp hqov)
      · intro o ho X hX
        rcases List.mem_cons.mp ho with ho | ho
        · subst ho
          rcases hcover X hX with h | ⟨q, hq, h⟩
          · exact ⟨_, List.mem_cons_self _ _, h⟩
          · exact ⟨q, List.mem_cons_of_mem _ hq, h⟩
        · obtain ⟨q, hq, h⟩ := oh3 o ho X hX
          exact ⟨q, List.mem_cons_of_mem _ (hsub.mem hq), h⟩

/-- `MergeFreeList` preserves the guillotine invariant. -/
theorem GInv_merge (D : Int) (used free : List Rect3d) (h : GInv D used free) :
    GInv D used (GuillotineBinPack3d.MergeFreeList free) := by
  obtain ⟨h1, h2, h3, h4, h5, h6⟩ := h
  obtain ⟨o1, o2, o3⟩ := mergeOuter_facts D free.length free
    (fun r hr => ⟨h1 r hr, h2 r hr⟩) h3
  rw [GuillotineBinPack3d.MergeFreeList]
  refine ⟨fun f hf => (o1 f hf).1, fun f hf => (o1 f hf).2, o2, ?_, h5, h6⟩
  intro f hf u hu hov
  obtain ⟨r, hr, hrov⟩ := o3 f hf u hov
  exact h4 r hr u hu hrov

/-- The single-box guillotine `Insert` preserves the invariant for
nonnegative request sizes. -/
theorem gInsertOne_inv (st : GuillotineBinPack3d) (width height depth : Int) (m : Bool)
    (c : FreeRectChoiceHeuristic) (s : GuillotineSplitHeuristic)
    (h0w : 0 ≤ width) (h0h : 0 ≤ height) (h0d : 0 ≤ depth)
    (hinv : GInv st.binDepth st.usedRectangles st.freeRectangles) :
    GInv st.binDepth (GuillotineBinPack3d.Insert st width height depth m c s).2.usedRectangles
      (GuillotineBinPack3d.Insert st width height depth m c s).2.freeRectangles := by
  have hsorted : GInv st.binDepth st.usedRectangles
      (GuillotineBinPack3d.sortFreeRectsByZ st.binWidth st.binHeight st.freeRectangles) :=
    GInv_perm _ _ _ _ (sortBy_perm _ _).symm hinv
  rcases hfp : GuillotineBinPack3d.findPos width height depth
      (GuillotineBinPack3d.sortFreeRectsByZ st.binWidth st.binHeight st.freeRectangles) with
    _ | ⟨r0, i0⟩
  · simp only [GuillotineBinPack3d.Insert, hfp]
    exact hsorted
  · obtain ⟨hlen, _, _, hx, hy, hz, hdep, hdims⟩ :=
      findPos_first_fit width height depth _ r0 i0 hfp
    by_cases h0 : r0.height = 0
    · simp only [GuillotineBinPack3d.Insert, hfp, if_pos h0]
      exact hsorted
    · simp only [GuillotineBinPack3d.Insert, hfp, if_neg h0]
      have hstep := place_step st.binDepth st.usedRectangles
        (GuillotineBinPack3d.sortFreeRectsByZ st.binWidth st.binHeight st.freeRectangles)
        i0 r0 s hsorted hlen hx hy hz
        (by rcases hdims with ⟨e1, _, f1, _, _⟩ | ⟨e1, _, f1, _, _⟩ <;> omega)
        (by rcases hdims with ⟨_, e2, _, f2, _⟩ | ⟨_, e2, _, f2, _⟩ <;> omega)
        (by rcases hdims with ⟨e1, _⟩ | ⟨e1, _⟩ <;> omega)
        (by rcases hdims with ⟨_, e2, _⟩ | ⟨_, e2, _⟩ <;> omega)
        (by omega)
      by_cases hm : m = true <;> simp only [hm, if_true, Bool.false_eq_true, if_false]
      · exact GInv_merge _ _ _ hstep
      · exact hstep

/-- Soundness predicate for the batch scan's best record: either it is
still the `INT_MAX` sentinel, or its indices are in range and the
recorded rect fits the recorded free volume's width/height in the
recorded orientation. -/
def BestOk (free : List Rect3d) (rects : List RectSize3d)
    (b : GuillotineBinPack3d.BatchBest) : Prop :=
  b.bestScore = intMax ∨
  (b.bestFreeRect < free.length ∧ b.bestRect < rects.length ∧
   ((b.bestFlipped = true ∧
      (rects.getD b.bestRect default).height ≤ (free.getD b.bestFreeRect default).width ∧
      (rects.getD b.bestRect default).width ≤ (free.getD b.bestFreeRect default).height) ∨
    (b.bestFlipped = false ∧
      (rects.getD b.bestRect default).width ≤ (free.getD b.bestFreeRect default).width ∧
      (rects.getD b.bestRect default).height ≤ (free.getD b.bestFreeRect default).height)))

/-- The inner batch scan preserves `BestOk` (every update it makes
records in-range indices and a fitting orientation). -/
theorem scanRects_ok (allFree : List Rect3d) (c : FreeRectChoiceHeuristic) (fi : Rect3d)
    (i : Nat) (hi : i < allFree.length) (hfi : allFree.getD i default = fi)
    (rects : List RectSize3d) :
    ∀ (rs : List RectSize3d) (j : Nat) (best : GuillotineBinPack3d.BatchBest),
      rects.drop j = rs → BestOk allFree rects best →
      BestOk allFree rects (GuillotineBinPack3d.scanRects allFree c fi i rs j best).1 := by
  intro rs
  induction rs with
  | nil => intro j best _ hb; exact hb
  | cons r rest ih =>
    intro j best hdrop hb
    have hj : j < rects.length := by
      by_contra hc
      rw [List.drop_eq_nil_iff.mpr (by omega)] at hdrop
      exact List.noConfusion hdrop
    have hget : rects.getD j default = r := by
      rw [List.getD_eq_getElem?_getD, show rects[j]? = some r from by
        have h1 := List.getElem?_drop rects j 0
        rw [hdrop] at h1
        simpa using h1.symm]
      rfl
    have hdrop1 : rects.drop (j + 1) = rest := by
      have h1 := List.drop_drop 1 j rects
      rw [hdrop] at h1
      simpa using h1.symm
    simp only [GuillotineBinPack3d.scanRects]
    by_cases h1 : r.width = fi.width ∧ r.height = fi.height ∧ r.depth = fi.depth
    · rw [if_pos h1]
      exact Or.inr ⟨hi, hj, Or.inr ⟨rfl, by rw [hget, hfi]; omega, by rw [hget, hfi]; omega⟩⟩
    · rw [if_neg h1]
      by_cases h2 : r.height = fi.width ∧ r.width = fi.height ∧ r.depth = fi.depth
      · rw [if_pos h2]
        exact Or.inr ⟨hi, hj, Or.inl ⟨rfl, by rw [hget, hfi]; omega, by rw [hget, hfi]; omega⟩⟩
      · rw [if_neg h2]
        by_cases h3 : r.width ≤ fi.width ∧ r.height ≤ fi.height ∧
            GuillotineBinPack3d.batchUprightDepthOk allFree j r = true
        · rw [if_pos h3]
          apply ih (j + 1) _ hdrop1
          by_cases hlt : GuillotineBinPack3d.ScoreByHeuristic r.width r.height r.depth fi c <
              best.bestScore
          · rw [if_pos hlt]
            exact Or.inr ⟨hi, hj, Or.inr ⟨rfl, by rw [hget, hfi]; omega,
              by rw [hget, hfi]; omega⟩⟩
          · rw [if_neg hlt]
            exact hb
        · rw [if_neg h3]
          by_cases h4 : r.height ≤ fi.width ∧ r.width ≤ fi.height ∧ r.depth ≤ fi.depth
          · rw [if_pos h4]
            apply ih (j + 1) _ hdrop1
            by_cases hlt : GuillotineBinPack3d.ScoreByHeuristic r.height r.width r.depth fi c <
                best.bestScore
            · rw [if_pos hlt]
              exact Or.inr ⟨hi, hj, Or.inl ⟨rfl, by rw [hget, hfi]; omega,
                by rw [hget, hfi]; omega⟩⟩
            · rw [if_neg hlt]
              exact hb
          · rw [if_neg h4]
            exact ih (j + 1) best hdrop1 hb

/-- The outer batch scan preserves `BestOk`. -/
theorem scanFree_ok (allFree : List Rect3d) (c : FreeRectChoiceHeuristic)
    (rects : List RectSize3d) :
    ∀ (fs : List Rect3d) (i : Nat) (best : GuillotineBinPack3d.BatchBest),
      allFree.drop i = fs → BestOk allFree rects best →
      BestOk allFree rects (GuillotineBinPack3d.scanFree allFree c rects fs i best) := by
  intro fs
  induction fs with
  | nil => intro i best _ hb; exact hb
  | cons f rest ih =>
    intro i best hdrop hb
    have hi : i < allFree.length := by
      by_contra hc
      rw [List.drop_eq_nil_iff.mpr (by omega)] at hdrop
      exact List.noConfusion hdrop
    have hget : allFree.getD i default = f := by
      rw [List.getD_eq_getElem?_getD, show allFree[i]? = some f from by
        have h1 := List.getElem?_drop allFree i 0
        rw [hdrop] at h1
        simpa using h1.symm]
      rfl
    have hdrop1 : allFree.drop (i + 1) = rest := by
      have h1 := List.drop_drop 1 i allFree
      rw [hdrop] at h1
      simpa using h1.symm
    simp only [GuillotineBinPack3d.scanFree]
    have hb1 := scanRects_ok allFree c f i hi hget rects rects 0 best (by simp) hb
    rcases hscan : GuillotineBinPack3d.scanRects allFree c f i rects 0 best with ⟨best1, exitq⟩
    rw [hscan] at hb1
    cases exitq
    · exact ih (i + 1) best1 hdrop1 hb1
    · exact hb1

/-- The batch scan's result is a sound best record. -/
theorem batchScan_ok (st : GuillotineBinPack3d) (rects : List RectSize3d)
    (c : FreeRectChoiceHeuristic) :
    BestOk st.freeRectangles rects (GuillotineBinPack3d.batchScan st rects c) :=
  scanFree_ok st.freeRectangles c rects st.freeRectangles 0
    ⟨0, 0, false, intMax⟩ rfl (Or.inl rfl)

/-- The batch loop preserves the invariant for nonnegative sizes: every
placement it makes goes through the same split step, and — thanks to
the top invariant — even a placement whose depth overflows its free
volume (the `freeRectangles[j]` bug) cannot overlap anything. -/
theorem batchLoop_inv (m : Bool) (c : FreeRectChoiceHeuristic) (s : GuillotineSplitHeuristic) :
    ∀ (fuel : Nat) (st : GuillotineBinPack3d) (rects : List RectSize3d),
    (∀ r ∈ rects, 0 ≤ r.width ∧ 0 ≤ r.height ∧ 0 ≤ r.depth) →
    GInv st.binDepth st.usedRectangles st.freeRectangles →
    GInv st.binDepth (GuillotineBinPack3d.batchLoop m c s fuel st rects).usedRectangles
      (GuillotineBinPack3d.batchLoop m c s fuel st rects).freeRectangles := by
  intro fuel
  induction fuel with
  | zero => intro st rects _ hinv; exact hinv
  | succ fuel ih =>
    intro st rects hno hinv
    match rects with
    | [] => exact hinv
    | r :: rs0 =>
      simp only [GuillotineBinPack3d.batchLoop]
      by_cases hsc : (GuillotineBinPack3d.batchScan st (r :: rs0) c).bestScore = intMax
      · rw [if_pos hsc]; exact hinv
      · rw [if_neg hsc]
        by_cases hidx : (GuillotineBinPack3d.batchScan st (r :: rs0) c).bestFreeRect
            < st.freeRectangles.length ∧
            (GuillotineBinPack3d.batchScan st (r :: rs0) c).bestRect < (r :: rs0).length
        · rw [if_pos hidx]
          have hok := batchScan_ok st (r :: rs0) c
          rcases hok with hok | ⟨_, hrr, hfit⟩
          · exact absurd hok hsc
          set best := GuillotineBinPack3d.batchScan st (r :: rs0) c with hbest
          set chosen := st.freeRectangles.getD best.bestFreeRect default with hchosen
          set rsz := (r :: rs0).getD best.bestRect default with hrsz
          set nd : Rect3d :=
            { x := chosen.x, y := chosen.y, z := chosen.z
              width := if best.bestFlipped = true then rsz.height else rsz.width
              height := if best.bestFlipped = true then rsz.width else rsz.height
              depth := rsz.depth } with hnd
          have hrszmem : rsz ∈ r :: rs0 := by
            rw [hrsz]
            exact getD_mem_of_lt _ _ _ hidx.2
          have hrsznn := hno _ hrszmem
          have hstep := place_step st.binDepth st.usedRectangles st.freeRectangles
            best.bestFreeRect nd s hinv hidx.1 rfl rfl rfl
            (by rcases hfit with ⟨hf, e1, e2⟩ | ⟨hf, e1, e2⟩ <;>
              simp only [hnd, hf, if_true, Bool.false_eq_true, if_false, ← hchosen] <;> omega)
            (by rcases hfit with ⟨hf, e1, e2⟩ | ⟨hf, e1, e2⟩ <;>
              simp only [hnd, hf, if_true, Bool.false_eq_true, if_false, ← hchosen] <;> omega)
            (by by_cases hf : best.bestFlipped = true <;>
              simp only [hnd, hf, if_true, Bool.false_eq_true, if_false] <;> omega)
            (by by_cases hf : best.bestFlipped = true <;>
              simp only [hnd, hf, if_true, Bool.false_eq_true, if_false] <;> omega)
            (by simp only [hnd]; omega)
          apply ih
          · exact fun q hq => hno q ((List.eraseIdx_sublist _ _).mem hq)
          · show GInv st.binDepth _ _
            by_cases hm : m = true <;>
              simp only [hm, if_true, Bool.false_eq_true, if_false]
            · exact GInv_merge _ _ _ hstep
            · exact hstep
        · rw [if_neg hidx]; exact hinv

/-- Any guillotine operation preserves the invariant (sizes nonneg). -/
theorem gApply_inv (st : GuillotineBinPack3d) (op : GOp) (hop : op.sizesNonneg)
    (hinv : GInv st.binDepth st.usedRectangles st.freeRectangles) :
    GInv st.binDepth (GOp.apply st op).usedRectangles (GOp.apply st op).freeRectangles := by
  cases op with
  | one w h d m c s =>
    exact gInsertOne_inv st w h d m c s hop.1 hop.2.1 hop.2.2 hinv
  | batch rs m c s =>
    exact batchLoop_inv m c s rs.length st rs hop hinv

/-- A whole guillotine operation sequence preserves the invariant. -/
theorem applyGOps_inv (st : GuillotineBinPack3d) (ops : List GOp)
    (hops : ∀ op ∈ ops, op.sizesNonneg)
    (hinv : GInv st.binDepth st.usedRectangles st.freeRectangles) :
    GInv st.binDepth (applyGOps st ops).usedRectangles (applyGOps st ops).freeRectangles := by
  induction ops generalizing st with
  | nil => exact hinv
  | cons op ops ih =>
    have h1 := gApply_inv st op (hops op (List.mem_cons_self _ _)) hinv
    have hbd : (GOp.apply st op).binDepth = st.binDepth :=
      (gApply_extends st op (hops op (List.mem_cons_self _ _))).choose_spec.2.2.2.2
    show GInv st.binDepth (applyGOps (GOp.apply st op) ops).usedRectangles
      (applyGOps (GOp.apply st op) ops).freeRectangles
    rw [← hbd]
    exact ih (GOp.apply st op) (fun q hq => hops q (List.mem_cons_of_mem _ hq))
      (hbd ▸ h1)

/-- A candidate the blocking test cleared cannot overlap that placed
box: a full 3D overlap implies the x–y footprints meet strictly and the
candidate's bottom is below the box's top — exactly `isBlocked`. -/
theorem not_overlap_of_isBlocked_eq_false (u n : Rect3d)
    (h : MaxRectsBinPack.isBlocked u n = false) : ¬ n.overlap u := by
  intro hov
  obtain ⟨hx, hy, hz⟩ := hov
  unfold intervalOverlap at hx hy hz
  rw [MaxRectsBinPack.isBlocked] at h
  rw [if_pos (by omega)] at h
  simp at h
  omega

/-- The node a successful max-rects `Insert` returns was checked
unblocked against every box placed before the call. -/
theorem mrInsert_node_unblocked (st : MaxRectsBinPack) (width height depth : Int)
    (meth : MaxRectsChoiceHeuristic)
    (hz : (MaxRectsBinPack.Insert st width height depth meth).1.height ≠ 0) :
    ∀ u ∈ st.usedRectangles,
      MaxRectsBinPack.isBlocked u (MaxRectsBinPack.Insert st width height depth meth).1
        = false := by
  rcases hfb : MaxRectsBinPack.findBottomLeft width height depth st.binAllowFlip
      st.usedRectangles (MaxRectsBinPack.sortFreeSpace st.freeRectangles) false with _ | r0
  · exfalso
    apply hz
    have hfind : MaxRectsBinPack.FindPositionForNewNodeBottomLeft
        { st with freeRectangles := MaxRectsBinPack.sortFreeSpace st.freeRectangles }
        width height depth = zeroRect3d := by
      simp only [MaxRectsBinPack.FindPositionForNewNodeBottomLeft]
      rw [hfb]
    simp only [MaxRectsBinPack.Insert, hfind]
    rfl
  · have hfind : MaxRectsBinPack.FindPositionForNewNodeBottomLeft
        { st with freeRectangles := MaxRectsBinPack.sortFreeSpace st.freeRectangles }
        width height depth = r0 := by
      simp only [MaxRectsBinPack.FindPositionForNewNodeBottomLeft]
      rw [hfb]
    have hres : (MaxRectsBinPack.Insert st width height depth meth).1 = r0 := by
      by_cases h0 : r0.height = 0 <;> simp [MaxRectsBinPack.Insert, hfind, h0]
    rw [hres]
    exact (findBottomLeft_some width height depth st.binAllowFlip st.usedRectangles _
      false r0 hfb).1

/-- One max-rects insert preserves pairwise disjointness of the placed
boxes: the blocking test against every already-placed box subsumes 3D
overlap. -/
theorem mrInsert_pairwise (st : MaxRectsBinPack) (width height depth : Int)
    (meth : MaxRectsChoiceHeuristic)
    (hp : st.usedRectangles.Pairwise fun a b => ¬ a.overlap b) :
    ((MaxRectsBinPack.Insert st width height depth meth).2.usedRectangles).Pairwise
      fun a b => ¬ a.overlap b := by
  by_cases hz : (MaxRectsBinPack.Insert st width height depth meth).1.height = 0
  · rw [mrInsert_used_eq, if_pos hz]; exact hp
  · rw [mrInsert_used_eq, if_neg hz]
    refine List.pairwise_append.mpr ⟨hp, by simp, ?_⟩
    intro a ha b hb
    rw [List.mem_singleton.mp hb]
    intro hov
    exact not_overlap_of_isBlocked_eq_false a _
      (mrInsert_node_unblocked st width height depth meth hz a ha)
      ((overlap_comm _ _).mp hov)

/-- A max-rects insert sequence keeps the placed boxes pairwise
disjoint. -/
theorem applyMOps_pairwise (st : MaxRectsBinPack) (ops : List RectSize3d)
    (hp : st.usedRectangles.Pairwise fun a b => ¬ a.overlap b) :
    ((applyMOps st ops).usedRectangles).Pairwise fun a b => ¬ a.overlap b := by
  induction ops generalizing st with
  | nil => exact hp
  | cons op ops ih =>
    exact ih _ (mrInsert_pairwise st op.width op.height op.depth .RectBottomLeftRule hp)

/-- **C2**: for every sequence of insert calls on either packer — the
guillotine packer via single-box or batch inserts with any heuristics
and merge flags (under the spec's caller contract of well-formed
container and box dimensions), and the max-rects packer via bottom-left
inserts — the placed boxes are pairwise disjoint: no two overlap in all
three axes simultaneously.  Failed calls are covered too (they add no
box). -/
theorem placed_boxes_pairwise_disjoint
    (W H D : Int) (hW : 1 ≤ W) (hH : 1 ≤ H) (hD : 1 ≤ D)
    (ops : List GOp) (hops : ∀ op ∈ ops, op.sizesNonneg)
    (W2 H2 D2 : Int) (flip : Bool) (mops : List RectSize3d) :
    ((applyGOps (GuillotineBinPack3d.Init W H D) ops).usedRectangles).Pairwise
      (fun a b => ¬ a.overlap b) ∧
    ((applyMOps (MaxRectsBinPack.Init W2 H2 D2 flip) mops).usedRectangles).Pairwise
      (fun a b => ¬ a.overlap b) := by
  constructor
  · have hinit : GInv (GuillotineBinPack3d.Init W H D).binDepth
        (GuillotineBinPack3d.Init W H D).usedRectangles
        (GuillotineBinPack3d.Init W H D).freeRectangles := by
      refine ⟨?_, ?_, ?_, ?_, ?_, ?_⟩ <;>
        simp [GuillotineBinPack3d.Init] <;> omega
    exact (applyGOps_inv (GuillotineBinPack3d.Init W H D) ops hops hinit).2.2.2.2.1
  · exact applyMOps_pairwise (MaxRectsBinPack.Init W2 H2 D2 flip) mops (by
      simp [MaxRectsBinPack.Init])

/-- Witness for `placed_boxes_pairwise_disjoint` at concrete inputs. -/
theorem placed_boxes_pairwise_disjoint_witness :
    ((1 : Int) ≤ 10 ∧ (1 : Int) ≤ 10 ∧ (1 : Int) ≤ 10 ∧
     (∀ op ∈ ([GOp.one 4 4 6 false .RectBestAreaFit .SplitShorterLeftoverAxis,
        GOp.batch [⟨20, 20, 20⟩, ⟨4, 3, 8⟩] false .RectBestAreaFit
          .SplitShorterLeftoverAxis] : List GOp), op.sizesNonneg)) ∧
    (((applyGOps (GuillotineBinPack3d.Init 10 10 10)
        [GOp.one 4 4 6 false .RectBestAreaFit .SplitShorterLeftoverAxis,
         GOp.batch [⟨20, 20, 20⟩, ⟨4, 3, 8⟩] false .RectBestAreaFit
           .SplitShorterLeftoverAxis]).usedRectangles).Pairwise
      (fun a b => ¬ a.overlap b) ∧
     ((applyMOps (MaxRectsBinPack.Init 10 10 10 true)
        [⟨10, 10, 5⟩, ⟨10, 10, 5⟩]).usedRectangles).Pairwise
      (fun a b => ¬ a.overlap b)) :=
  ⟨⟨by decide, by decide, by decide, by decide⟩,
   placed_boxes_pairwise_disjoint 10 10 10 (by decide) (by decide) (by decide)
     [GOp.one 4 4 6 false .RectBestAreaFit .SplitShorterLeftoverAxis,
      GOp.batch [⟨20, 20, 20⟩, ⟨4, 3, 8⟩] false .RectBestAreaFit .SplitShorterLeftoverAxis]
     (by decide) 10 10 10 true [⟨10, 10, 5⟩, ⟨10, 10, 5⟩]⟩
